
import Mathlib

/-!
SDL platform shims: Win32 raw-input mouse discovery and Milan Xbios mode listing

A shallow embedding of

* `src/video/xbios/SDL_xbios_milan.c` (`SDL_XBIOS_ListMilanModes`), and
* `src/video/win32/SDL_win32mouse.c` (`WIN_InitMouse`),

together with the properties of the specification that concern them.

The operating system is an external collaborator: every platform call is
represented by an answer function supplied as a parameter, and every call the
code makes to the platform or to the rest of the library is recorded, in
order, in a list of calls.
-/

namespace SDL

/-! ## Machine integers -/

/-- Value of a C expression converted to `Uint16`. -/
def toUint16 (n : Nat) : Nat := n % 65536

/-- Value of a C expression converted to `short` (16 bit, two's complement). -/
def toShort (n : Nat) : Int :=
  if n % 65536 < 32768 then ((n % 65536 : Nat) : Int) else ((n % 65536 : Nat) : Int) - 65536

/-! ## Milan Xbios video modes (`SDL_xbios_milan.c`) -/

/-- The constant `NUM_PREDEFINED_MODES`. -/
def NUM_PREDEFINED_MODES : Nat := 7

/-- The type `predefined_mode_t`. -/
structure predefined_mode_t where
  width : Nat
  height : Nat
deriving DecidableEq, Inhabited

/-- The table `mode_list[NUM_PREDEFINED_MODES]`. -/
def mode_list : List predefined_mode_t :=
  [⟨640, 400⟩, ⟨640, 480⟩, ⟨800, 608⟩, ⟨1024, 768⟩, ⟨1152, 864⟩, ⟨1280, 1024⟩, ⟨1600, 1200⟩]

/-- The table `mode_bpp[4]`. -/
def mode_bpp : List Nat := [8, 15, 16, 32]

/-- The type `xbiosmode_t` (all numeric fields are `Uint16`). -/
structure xbiosmode_t where
  number : Nat
  width : Nat
  height : Nat
  depth : Nat
  doubleline : Bool
deriving DecidableEq

/-- Calls made by `SDL_XBIOS_ListMilanModes`, in the order they are made. -/
inductive MilanCall where
  | Validmode (mode : Int)
  | SDL_XBIOS_AddMode (actually_add : Int) (modeinfo : xbiosmode_t)
deriving DecidableEq

/-- The descriptor filled in at lines 75-79 for the loop variables `i`, `j`. -/
def milanModeinfo (i deviceid j : Nat) : xbiosmode_t :=
  { number := toUint16 (deviceid + j)
    width := (mode_list.getD i default).width
    height := (mode_list.getD i default).height
    depth := mode_bpp.getD (j - 1) 0
    doubleline := false }

/-- The inner loop `for (j=1; j<4; j++)` of `SDL_XBIOS_ListMilanModes`; the
first numeric argument is the number of iterations still to run, the second
the current value of `j`. `Validmode` is the platform's answer to the trap. -/
def ListMilanModes_inner (Validmode : Int → Int) (actually_add : Int) (i deviceid : Nat) :
    Nat → Nat → List MilanCall → List MilanCall
  | 0, _, calls => calls
  | n + 1, j, calls =>
    let calls1 := calls ++ [MilanCall.Validmode (toShort (deviceid + j))]
    let calls2 :=
      if Validmode (toShort (deviceid + j)) ≠ 0 then
        calls1 ++ [MilanCall.SDL_XBIOS_AddMode actually_add (milanModeinfo i deviceid j)]
      else calls1
    ListMilanModes_inner Validmode actually_add i deviceid n (j + 1) calls2

/-- The outer loop `for (i=0; i<NUM_PREDEFINED_MODES; i++)`; the first numeric
argument is the number of iterations still to run, the second the current `i`. -/
def ListMilanModes_outer (Validmode : Int → Int) (actually_add : Int) :
    Nat → Nat → List MilanCall → List MilanCall
  | 0, _, calls => calls
  | n + 1, i, calls =>
    let deviceid := toUint16 (0x1000 + (i <<< 4))
    ListMilanModes_outer Validmode actually_add n (i + 1)
      (ListMilanModes_inner Validmode actually_add i deviceid (4 - 1) 1 calls)

/-- The function `SDL_XBIOS_ListMilanModes`: the calls it makes, in order. -/
def SDL_XBIOS_ListMilanModes (Validmode : Int → Int) (actually_add : Int) : List MilanCall :=
  ListMilanModes_outer Validmode actually_add NUM_PREDEFINED_MODES 0 []

/-- The descriptors passed to `SDL_XBIOS_AddMode`, in order. -/
def emittedModes : List MilanCall → List xbiosmode_t
  | [] => []
  | MilanCall.SDL_XBIOS_AddMode _ m :: cs => m :: emittedModes cs
  | MilanCall.Validmode _ :: cs => emittedModes cs

/-- The identifiers submitted to `Validmode`, in order. -/
def submittedModes : List MilanCall → List Int
  | [] => []
  | MilanCall.Validmode n :: cs => n :: submittedModes cs
  | MilanCall.SDL_XBIOS_AddMode _ _ :: cs => submittedModes cs

/-- Position of the descriptor's (width, height) pair in `mode_list`. -/
def modeListIndex (m : xbiosmode_t) : Nat :=
  mode_list.indexOf ⟨m.width, m.height⟩

/-- Position of the descriptor's depth in `mode_bpp`. -/
def modeBppIndex (m : xbiosmode_t) : Nat :=
  mode_bpp.indexOf m.depth

/-- Dimension-major, depth-minor order on descriptors. -/
def catalogBefore (a b : xbiosmode_t) : Prop :=
  modeListIndex a < modeListIndex b ∨
    (modeListIndex a = modeListIndex b ∧ modeBppIndex a < modeBppIndex b)

instance (a b : xbiosmode_t) : Decidable (catalogBefore a b) := by
  unfold catalogBefore; infer_instance

/-- A platform that accepts every identifier. -/
def validmodeAll : Int → Int := fun _ => 1

/-- A platform that accepts exactly the identifiers 0x1001, 0x1003 and 0x1014. -/
def validmodeSample : Int → Int := fun n =>
  if n = 0x1001 ∨ n = 0x1003 ∨ n = 0x1014 then 1 else 0

/-- The combinations tried by the two loops, as descriptors, in loop order. -/
def milanCatalog : List xbiosmode_t :=
  (List.range' 0 NUM_PREDEFINED_MODES).flatMap fun i =>
    (List.range' 1 (4 - 1)).map fun j => milanModeinfo i (toUint16 (0x1000 + (i <<< 4))) j

/-- The calls made for one combination: the validation, then the emission if accepted. -/
def milanProbe (Validmode : Int → Int) (actually_add : Int) (m : xbiosmode_t) : List MilanCall :=
  MilanCall.Validmode (m.number : Int) ::
    (if Validmode (m.number : Int) ≠ 0 then [MilanCall.SDL_XBIOS_AddMode actually_add m] else [])

/-! ## Win32 raw-input mouse discovery (`SDL_win32mouse.c`) -/

/-- The constant `RIM_TYPEMOUSE` of the Windows headers. -/
def RIM_TYPEMOUSE : Nat := 0

/-- The constant `ERROR_SUCCESS` of the Windows headers. -/
def ERROR_SUCCESS : Int := 0

/-- One element of the array filled by `GetRawInputDeviceList`. -/
structure RAWINPUTDEVICELIST where
  hDevice : Nat
  dwType : Nat
deriving DecidableEq

/-- The fields of the Wintab `AXIS` record that `WIN_InitMouse` reads. -/
structure AXIS where
  axMin : Int
  axMax : Int
deriving DecidableEq

/-- Calls made by `WIN_InitMouse` and `WIN_QuitMouse` to the platform and to the
rest of the library, in the order they are made. -/
inductive Call where
  | GetRawInputDeviceList (withList : Bool)
  | GetRawInputDeviceInfoA (hDevice : Nat) (withBuffer : Bool)
  | RegOpenKeyExA (key_name : List Char)
  | RegQueryValueExA
  | RegCloseKey
  | SDL_SetIndexId (id : Int) (index : Int)
  | WTInfo
  | SDL_AddMouse (index : Int) (name : List Char) (pressure_max : Int) (pressure_min : Int)
  | SDL_DelMouse (index : Int)
deriving DecidableEq

/-- Answers of the external collaborators of `WIN_InitMouse`. The per-device
answers take the loop counter `i` as their first argument, so that a platform
may answer differently each time it is asked. -/
structure Platform where
  /-- Result (a `UINT`) of `GetRawInputDeviceList(NULL, &devCount, ...)`. -/
  countResult : Nat
  /-- The array `deviceList[0 .. devCount-1]` after the second call of
  `GetRawInputDeviceList`; `devCount` is its length. -/
  deviceList : List RAWINPUTDEVICELIST
  /-- The call `GetRawInputDeviceInfoA(h, RIDI_DEVICENAME, NULL, &tmp)` for iteration `i`,
  handle `h` and the current `tmp`: the result (a `UINT`) and the value left in `tmp`. -/
  infoSize : Nat → Nat → Int → Nat × Int
  /-- The call `GetRawInputDeviceInfoA(h, RIDI_DEVICENAME, buffer, &tmp)`: the result
  (a `UINT`), the value left in `tmp`, and the bytes found at `buffer + k` afterwards. -/
  infoName : Nat → Nat → Int → Nat × Int × (Nat → Char)
  /-- Content of the 256 bytes `SDL_malloc` returns for `device_name` in iteration `i`. -/
  deviceNameBytes : Nat → Nat → Char
  /-- The bytes that follow these 256 bytes in memory, up to the first NUL after them. -/
  bytesAfterName : Nat → List Char
  /-- Whether the allocator returns from `SDL_free(buffer)` in iteration `i`. The
  pointer passed is not the one `SDL_malloc` returned (line 102 has advanced it by
  4), so what happens is left to the allocator: it may return, or stop the program. -/
  freeReturns : Nat → Bool
  /-- Result of `RegOpenKeyExA` for iteration `i` and the key name. -/
  regOpen : Nat → List Char → Int
  /-- Result of `RegQueryValueExA` for iteration `i` and the key name, and the bytes it
  stores at the start of `device_name`. -/
  regQuery : Nat → List Char → Int × List Char
  /-- The pressure axis `WTInfo(WTI_DEVICES, DVC_NPRESSURE, &pressure)` stores. -/
  pressure : Nat → AXIS
  /-- Result of `SDL_AddMouse` for the given index. -/
  addMouseResult : Nat → Int

/-- The variables `mice`, `total_mice`, `tablet` and the field `data->mouse`. An
element of `mice` that was never written is `none`. -/
structure Globals where
  mice : List (Option Nat)
  total_mice : Int
  tablet : Int
  mouse : Int
deriving DecidableEq

/-- The variables that change in the device loop of `WIN_InitMouse`. -/
structure LoopState where
  index : Nat
  tmp : Int
  mice : List (Option Nat)
  tablet : Int
  mouse : Int
  calls : List Call
  /-- Set when the allocator has stopped the program; no later statement runs. -/
  stopped : Bool := false
deriving DecidableEq

/-- The string a `char*` denotes: the bytes before the first NUL. The list of a
string literal holds its characters, the terminator being implicit; the memory of
`device_name` is modelled with the bytes that follow it up to a NUL, so that a scan
which leaves the 256 bytes goes on into them as `SDL_strlen` does. -/
def cString (bytes : List Char) : List Char :=
  bytes.takeWhile fun c => c ≠ '\x00'

/-- The function `SDL_strlen`. -/
def SDL_strlen (bytes : List Char) : Nat :=
  (cString bytes).length

/-- The function `SDL_memcpy(dst, src, len)`: the bytes at `dst` afterwards. -/
def SDL_memcpy (dst src : List Char) (len : Nat) : List Char :=
  src.take len ++ dst.drop len

/-- The macro `SDL_tolower` on a byte. -/
def SDL_tolower (c : Char) : Char :=
  if 'A' ≤ c ∧ c ≤ 'Z' then Char.ofNat (c.toNat + 32) else c

/-- The local `tab`. -/
def tab : List Char := "wacom".toList

/-- The local `default_device_name`. -/
def default_device_name : List Char := "Pointing device xx".toList

/-- The local `reg_key_root`. -/
def reg_key_root : List Char := "System\\CurrentControlSet\\Enum\\".toList

/-- Lines 106-117: the loop `for(j=0;j<tmp;++j)` over the device path, with
`tmp_name = buffer + j`. The first argument is the number of iterations still to
run, the second the current `j`; the result is the final `j` and the bytes at
`buffer`. -/
def normalizePath_loop : Nat → Nat → (Nat → Char) → Nat × (Nat → Char)
  | 0, j, buffer => (j, buffer)
  | n + 1, j, buffer =>
    if buffer j = '#' then
      normalizePath_loop n (j + 1) (fun k => if k = j then '\\' else buffer k)
    else if buffer j = '\x7b' then (j, buffer)
    else normalizePath_loop n (j + 1) buffer

/-- Lines 102-121: the bytes stored in `key_name` for the path found at `buffer`
with reported length `tmp`. -/
def keyNameBytes (buffer : Nat → Char) (tmp : Int) : List Char :=
  let buffer4 := fun k => buffer (k + 4)
  let r := normalizePath_loop (tmp - 4).toNat 0 buffer4
  let j := r.1
  let terminated := fun k => if k = j then '\x00' else r.2 k
  SDL_memcpy [] reg_key_root (SDL_strlen reg_key_root) ++ (List.range (j + 1)).map terminated

/-- Lines 77 and 123-135: the bytes at `device_name` after the registry lookup: the
256 bytes allocated, then the bytes that follow them in memory and the NUL that ends
these. -/
def resolveName (p : Platform) (i : Nat) (key_name : List Char) : List Char :=
  let device_name :=
    (List.range 256).map (p.deviceNameBytes i) ++ p.bytesAfterName i ++ ['\x00']
  let device_name1 :=
    if p.regOpen i key_name ≠ ERROR_SUCCESS then
      SDL_memcpy device_name default_device_name (SDL_strlen default_device_name)
    else device_name
  let written := (p.regQuery i key_name).2.take 256
  let device_name2 := SDL_memcpy device_name1 written written.length
  if (p.regQuery i key_name).1 ≠ ERROR_SUCCESS then
    SDL_memcpy device_name2 default_device_name (SDL_strlen default_device_name)
  else device_name2

/-- Lines 144-150: the loop `for(k=0;k<5;++k)`; the result is the final `k`. -/
def wacom_k (device_name : List Char) (j : Nat) : Nat → Nat → Nat
  | 0, k => k
  | n + 1, k =>
    if tab.getD k '\x00' ≠ SDL_tolower (device_name.getD (j + k) '\x00') then k
    else wacom_k device_name j n (k + 1)

/-- Lines 142-156: the loop `for(j=0;j<l-5;++j)`; the result is the new `tablet`. -/
def wacom_j (device_name : List Char) (index : Nat) : Nat → Nat → Int → Int
  | 0, _, tablet => tablet
  | n + 1, j, tablet =>
    if wacom_k device_name j 5 0 = 5 then (index : Int)
    else wacom_j device_name index n (j + 1) tablet

/-- Lines 139-157: the value of `tablet` after the classification of one device. -/
def classifyTablet (tablet : Int) (index : Nat) (device_name : List Char) : Int :=
  let l : Int := (SDL_strlen device_name : Nat)
  if tablet = -1 then wacom_j device_name index (l - 5).toNat 0 tablet else tablet

/-- Lines 136-168: registration of the device with handle `hDevice` under the
resolved name. -/
def registerMouse (p : Platform) (i hDevice : Nat) (device_name : List Char) (s : LoopState) :
    LoopState :=
  let mice := s.mice.set s.index (some hDevice)
  let calls := s.calls ++ [Call.SDL_SetIndexId s.index s.index]
  let tablet := classifyTablet s.tablet s.index device_name
  if tablet = (s.index : Int) then
    { s with
      mice := mice
      tablet := tablet
      mouse := p.addMouseResult s.index
      calls := calls ++ [Call.WTInfo,
        Call.SDL_AddMouse s.index (cString device_name) (p.pressure i).axMax (p.pressure i).axMin]
      index := s.index + 1 }
  else
    { s with
      mice := mice
      tablet := tablet
      mouse := p.addMouseResult s.index
      calls := calls ++ [Call.SDL_AddMouse s.index (cString device_name) 0 0]
      index := s.index + 1 }

/-- Lines 73-171: one iteration of the device loop, for `deviceList[i] = d`. The
results of `GetRawInputDeviceInfoA` are `UINT` values, compared with 0 as such. The
iteration ends with `SDL_free(buffer)` (line 170) on the pointer that line 102 has
advanced by 4; if the allocator does not return from it the program stops there. -/
def WIN_InitMouse_body (p : Platform) (i : Nat) (d : RAWINPUTDEVICELIST) (s : LoopState) :
    LoopState :=
  if d.dwType ≠ RIM_TYPEMOUSE then s
  else
    let q1 := p.infoSize i d.hDevice s.tmp
    let s1 := { s with
      tmp := q1.2
      calls := s.calls ++ [Call.GetRawInputDeviceInfoA d.hDevice false] }
    if q1.1 < 0 then s1
    else
      let q2 := p.infoName i d.hDevice s1.tmp
      let s2 := { s1 with
        tmp := q2.2.1
        calls := s1.calls ++ [Call.GetRawInputDeviceInfoA d.hDevice true] }
      if q2.1 < 0 then s2
      else
        let key_name := cString (keyNameBytes q2.2.2 s2.tmp)
        let s3 := { s2 with
          tmp := s2.tmp - 4
          calls := s2.calls ++
            [Call.RegOpenKeyExA key_name, Call.RegQueryValueExA, Call.RegCloseKey] }
        let s4 := registerMouse p i d.hDevice (resolveName p i key_name) s3
        { s4 with stopped := !(p.freeReturns i) }

/-- The loop `for(i=0;i<devCount;++i)` over the entries of `deviceList` from
position `i` on; no iteration runs once the program has stopped. -/
def WIN_InitMouse_loop (p : Platform) : List RAWINPUTDEVICELIST → Nat → LoopState → LoopState
  | [], _, s => s
  | d :: ds, i, s =>
    if s.stopped then s
    else WIN_InitMouse_loop p ds (i + 1) (WIN_InitMouse_body p i d s)

/-- The function `WIN_InitMouse`: the variables and the calls made when it returns
or, if the allocator stops the program inside the loop, at that point; line 173 is
then not reached and `total_mice` is as on entry. -/
def WIN_InitMouse (p : Platform) (g : Globals) : Globals × List Call :=
  if p.countResult ≠ 0 then (g, [Call.GetRawInputDeviceList false])
  else
    let s := WIN_InitMouse_loop p p.deviceList 0
      { index := 0
        tmp := 0
        mice := List.replicate p.deviceList.length none
        tablet := g.tablet
        mouse := g.mouse
        calls := [Call.GetRawInputDeviceList false, Call.GetRawInputDeviceList true] }
    if s.stopped then
      ({ mice := s.mice, total_mice := g.total_mice, tablet := s.tablet, mouse := s.mouse },
        s.calls)
    else
      ({ mice := s.mice, total_mice := s.index, tablet := s.tablet, mouse := s.mouse }, s.calls)

/-- Whether the call of `WIN_InitMouse` returns. -/
def WIN_InitMouse_returns (p : Platform) (g : Globals) : Bool :=
  if p.countResult ≠ 0 then true
  else
    !(WIN_InitMouse_loop p p.deviceList 0
      { index := 0
        tmp := 0
        mice := List.replicate p.deviceList.length none
        tablet := g.tablet
        mouse := g.mouse
        calls := [Call.GetRawInputDeviceList false, Call.GetRawInputDeviceList true] }).stopped

/-- The loop `for(i=0;i<total_mice;++i)` of `WIN_QuitMouse`; the first argument is
the number of iterations still to run, the second the current `i`. -/
def WIN_QuitMouse_loop : Nat → Nat → List Call → List Call
  | 0, _, calls => calls
  | n + 1, i, calls => WIN_QuitMouse_loop n (i + 1) (calls ++ [Call.SDL_DelMouse i])

/-- The function `WIN_QuitMouse`: the variables afterwards and the calls made. -/
def WIN_QuitMouse (g : Globals) : Globals × List Call :=
  (g, WIN_QuitMouse_loop g.total_mice.toNat 0 [])

/-- The arguments of the `SDL_SetIndexId` calls, in order. -/
def setIndexIdCalls : List Call → List (Int × Int)
  | [] => []
  | Call.SDL_SetIndexId a b :: cs => (a, b) :: setIndexIdCalls cs
  | _ :: cs => setIndexIdCalls cs

/-- The index arguments of the `SDL_AddMouse` calls, in order. -/
def addMouseIndices : List Call → List Int
  | [] => []
  | Call.SDL_AddMouse idx _ _ _ :: cs => idx :: addMouseIndices cs
  | _ :: cs => addMouseIndices cs

/-- The index and name arguments of the `SDL_AddMouse` calls, in order. -/
def addMouseNames : List Call → List (Int × List Char)
  | [] => []
  | Call.SDL_AddMouse idx name _ _ :: cs => (idx, name) :: addMouseNames cs
  | _ :: cs => addMouseNames cs

/-- The variables before the first discovery pass: no handle array, no device
counted, no tablet classified. -/
def initialGlobals : Globals :=
  { mice := [], total_mice := 0, tablet := -1, mouse := 0 }

/-- Bytes of a text followed by NULs. -/
def bytesOf (text : String) : Nat → Char :=
  fun k => text.toList.getD k '\x00'

/-- A platform with one mouse-class device per entry of `names`. A device with a
name has it stored in the name database; for a device without one the key cannot
be opened and the value query fails. Fresh memory is zeroed, and the allocator
returns from every `SDL_free`. -/
def namedMice (names : List (Option String)) : Platform :=
  { countResult := 0
    deviceList := (List.range names.length).map fun i => ⟨100 + i, RIM_TYPEMOUSE⟩
    infoSize := fun _ _ _ => (0, 29)
    infoName := fun _ _ _ => (29, 29, bytesOf "\\\\?\\HID#VID_056A#7&1f2e#\x7b378de44c\x7d")
    deviceNameBytes := fun _ _ => '\x00'
    bytesAfterName := fun _ => []
    freeReturns := fun _ => true
    regOpen := fun i _ => if (names.getD i none).isSome then 0 else 2
    regQuery := fun i _ =>
      match names.getD i none with
      | some name => (0, name.toList ++ ['\x00'])
      | none => (2, [])
    pressure := fun _ => ⟨0, 1023⟩
    addMouseResult := fun index => index }

/-- A platform whose count query fails. -/
def failingCount : Platform :=
  { namedMice [] with countResult := 4294967295 }

/-- The key name passed to `RegOpenKeyExA` in iteration `i` for the device `d`, when
the iteration is entered with the given `tmp`. -/
def lookupKey (p : Platform) (i : Nat) (d : RAWINPUTDEVICELIST) (tmp : Int) : List Char :=
  cString (keyNameBytes
    (p.infoName i d.hDevice (p.infoSize i d.hDevice tmp).2).2.2
    (p.infoName i d.hDevice (p.infoSize i d.hDevice tmp).2).2.1)

/-- The loop state from which `registerMouse` gives the state at the end of
iteration `i`: the calls made before the registration, `tmp` after line 103, and the
outcome of the `SDL_free(buffer)` of line 170. -/
def beforeRegister (p : Platform) (i : Nat) (d : RAWINPUTDEVICELIST) (s : LoopState) :
    LoopState :=
  { s with
    stopped := !(p.freeReturns i)
    tmp := (p.infoName i d.hDevice (p.infoSize i d.hDevice s.tmp).2).2.1 - 4
    calls := s.calls ++
      [Call.GetRawInputDeviceInfoA d.hDevice false, Call.GetRawInputDeviceInfoA d.hDevice true,
        Call.RegOpenKeyExA (lookupKey p i d s.tmp), Call.RegQueryValueExA, Call.RegCloseKey] }

/-- The registrations made so far carry the indices `0 .. index-1`, in order. -/
def denseSoFar (s : LoopState) : Prop :=
  setIndexIdCalls s.calls = (List.range s.index).map (fun (n : Nat) => ((n : Int), (n : Int))) ∧
    addMouseIndices s.calls = (List.range s.index).map (fun (n : Nat) => (n : Int))

/-- The fallback name as the specification words it: the default name up to its
placeholder, followed by the registration index as two zero-padded decimal digits. -/
def fallbackNameSpec (index : Nat) : List Char :=
  default_device_name.take 16 ++
    [Char.ofNat (48 + index / 10 % 10), Char.ofNat (48 + index % 10)]

/-- At most one device has been treated as the tablet so far, and a classified
tablet is a device registered earlier. -/
def stickySoFar (s : LoopState) : Prop :=
  (s.tablet = -1 ∧ s.calls.count Call.WTInfo = 0) ∨
    (0 ≤ s.tablet ∧ s.tablet < (s.index : Int) ∧ s.calls.count Call.WTInfo ≤ 1)

/-- The list of the specification: a generic mouse followed by two tablets. -/
def threeNames : Platform :=
  namedMice [some "Generic Mouse", some "Wacom Tablet", some "Wacom Tablet 2"]

/-- Three named mice followed by a device that is not in the name database. -/
def fourthUnnamed : Platform :=
  namedMice [some "Mouse A", some "Mouse B", some "Mouse C", none]

/-- A raw device list with a keyboard between two mice. -/
def mixedDevices : Platform :=
  { namedMice [some "Mouse A", none, some "Mouse B"] with
    deviceList := [⟨100, RIM_TYPEMOUSE⟩, ⟨200, 1⟩, ⟨101, RIM_TYPEMOUSE⟩] }

/-- The loop state on entry of the first iteration for a one-device list. -/
def firstIteration : LoopState :=
  { index := 0, tmp := 0, mice := [none], tablet := -1, mouse := 0,
    calls := [Call.GetRawInputDeviceList false, Call.GetRawInputDeviceList true] }

/-- A platform with one mouse whose two `GetRawInputDeviceInfoA` queries fail: they
return `(UINT)-1` and leave `tmp` and the buffer as they were. The device is not in
the name database. -/
def failingInfo : Platform :=
  { namedMice [none] with
    infoSize := fun _ _ tmp => (4294967295, tmp)
    infoName := fun _ _ tmp => (4294967295, tmp, bytesOf "") }

/-- The key segment as the specification words it: the path characters after the
first 4, up to `tmp - 4` of them, taken up to but excluding the first opening brace,
with every '#' replaced by a backslash. -/
def keySegmentSpec (buffer : Nat → Char) (tmp : Int) : List Char :=
  (((List.range (tmp - 4).toNat).map fun k => buffer (k + 4)).takeWhile
    fun c => c ≠ '\x7b').map fun c => if c = '#' then '\\' else c

/-- Line 94: the number of bytes allocated for `buffer` when `tmp` is the length
the first query reported. -/
def pathBufferSize (tmp : Int) : Int := tmp + 1

/-- Lines 106-118: the positions `j` at which `*tmp_name` is read or written by the
loop over the device path and by the store of the terminator after it; the
arguments are those of `normalizePath_loop`. -/
def normalizePath_touched : Nat → Nat → (Nat → Char) → List Nat
  | 0, j, _ => [j]
  | n + 1, j, buffer =>
    if buffer j = '#' then
      j :: normalizePath_touched n (j + 1) (fun k => if k = j then '\\' else buffer k)
    else if buffer j = '\x7b' then [j, j]
    else j :: normalizePath_touched n (j + 1) buffer

/-- Lines 102-121: the offsets, counted from the start of the allocation of
`buffer`, that the key derivation reads or writes: those of the loop and of the
terminator, then the `j + 1` bytes `SDL_memcpy` reads. -/
def pathOffsetsTouched (buffer : Nat → Char) (tmp : Int) : List Nat :=
  let buffer4 := fun k => buffer (k + 4)
  let j := (normalizePath_loop (tmp - 4).toNat 0 buffer4).1
  (normalizePath_touched (tmp - 4).toNat 0 buffer4 ++ List.range (j + 1)).map fun k => k + 4

/-- The device path of the sample platforms, 29 characters with the terminator. -/
def samplePath : Nat → Char :=
  bytesOf "\\\\?\\HID#VID_056A#7&1f2e#\x7b378de44c\x7d"

/-- The pressure rule for one call: a registration at the index `tablet` carries a
pressure axis reported by the platform, every other registration carries 0 and 0. -/
def pressureRule (p : Platform) (tablet : Int) : Call → Prop
  | Call.SDL_AddMouse idx _ pressure_max pressure_min =>
    (idx = tablet ∧
        ∃ i : Nat, pressure_max = (p.pressure i).axMax ∧ pressure_min = (p.pressure i).axMin) ∨
      (idx ≠ tablet ∧ pressure_max = 0 ∧ pressure_min = 0)
  | _ => True

/-- The index of a registration call lies below `index`. -/
def indexBelow (index : Nat) : Call → Prop
  | Call.SDL_AddMouse idx _ _ _ => 0 ≤ idx ∧ idx < (index : Int)
  | _ => True

/-- Every registration made so far obeys the pressure rule for the current `tablet`
and has an index below the current one. -/
def pressureSoFar (p : Platform) (s : LoopState) : Prop :=
  ∀ c ∈ s.calls, pressureRule p s.tablet c ∧ indexBelow s.index c

/-- Modelled from the spec: the device table kept by `SDL_AddMouse` and
`SDL_DelMouse` (`SDL_mouse.c`, not among the sources), as the list of its occupied
indices. `SDL_AddMouse` inserts the entry at the given index, `SDL_DelMouse` removes
the entry at the given index, and no other call changes the table. -/
def tableStep (table : List Int) : Call → List Int
  | Call.SDL_AddMouse idx _ _ _ => idx :: table.filter fun x => x ≠ idx
  | Call.SDL_DelMouse idx => table.filter fun x => x ≠ idx
  | _ => table

/-- The device table after a sequence of calls. -/
def deviceTable (calls : List Call) (table : List Int) : List Int :=
  calls.foldl tableStep table

/-- The `actually_add` arguments of the `SDL_XBIOS_AddMode` calls, in order. -/
def forwardedFlags : List MilanCall → List Int
  | [] => []
  | MilanCall.SDL_XBIOS_AddMode a _ :: cs => a :: forwardedFlags cs
  | MilanCall.Validmode _ :: cs => forwardedFlags cs

/-- The identifier as the specification words it: the base offset plus `i << 4`
plus the catalog position `d` of the depth. -/
def compositeIdSpec (i d : Nat) : Nat := 0x1000 + (i <<< 4) + d

/-! ## Surface flags (`SDL_video.h`) -/

/-- The flag `SDL_HWSURFACE`. -/
def SDL_HWSURFACE : Nat := 0x00000001

/-- The flag `SDL_PREALLOC`. -/
def SDL_PREALLOC : Nat := 0x00000002

/-- The flag `SDL_SRCALPHA`. -/
def SDL_SRCALPHA : Nat := 0x00000004

/-- The flag `SDL_SRCCOLORKEY`. -/
def SDL_SRCCOLORKEY : Nat := 0x00000008

/-- The flag `SDL_RLEACCELOK`. -/
def SDL_RLEACCELOK : Nat := 0x00000010

/-- The flag `SDL_RLEACCEL`. -/
def SDL_RLEACCEL : Nat := 0x00000020

/-- The macro `SDL_MUSTLOCK(S)` as a function of `S->flags`: the value of the C
comparison, 1 or 0. -/
def SDL_MUSTLOCK (flags : Nat) : Nat :=
  if (flags &&& (SDL_HWSURFACE ||| SDL_RLEACCEL)) ≠ 0 then 1 else 0

/-! ## Further sample platforms and instrumented loops of `WIN_InitMouse` -/

/-- A platform with one mouse for which `RegOpenKeyExA` fails, while the value query
that follows reports success and stores "Stale Name". -/
def staleQuery : Platform :=
  { namedMice [none] with
    regOpen := fun _ _ => 2
    regQuery := fun _ _ => (0, "Stale Name".toList ++ ['\x00']) }

/-- A platform with one mouse that is not in the name database, where the memory
returned for `device_name` holds the bytes of an earlier text. -/
def dirtyMemory : Platform :=
  { namedMice [none] with
    deviceNameBytes := fun _ => bytesOf "0123456789abcdefgh wacom pad" }

/-- A platform with one mouse that is not in the name database, where the 256
bytes returned for `device_name` hold no NUL byte; the first NUL is the byte that
follows them. -/
def filledMemory : Platform :=
  { namedMice [none] with deviceNameBytes := fun _ _ => 'A' }

/-- The loop state with which `WIN_InitMouse` enters the device loop. -/
def loopEntry (p : Platform) (g : Globals) : LoopState :=
  { index := 0
    tmp := 0
    mice := List.replicate p.deviceList.length none
    tablet := g.tablet
    mouse := g.mouse
    calls := [Call.GetRawInputDeviceList false, Call.GetRawInputDeviceList true] }

/-- The tablet carried into the pass is kept, and the pressure axis has been queried
once if and only if the device at that index has been registered. -/
def carriedSoFar (t : Nat) (s : LoopState) : Prop :=
  s.tablet = (t : Int) ∧ s.calls.count Call.WTInfo = if t < s.index then 1 else 0

/-- Line 95: the number of bytes allocated for `key_name` when `tmp` is the length
the first query reported; `pointerSize` is `sizeof(reg_key_root)`, the size of a
`const char *`. -/
def keyNameSize (tmp : Int) (pointerSize : Nat) : Int :=
  tmp + (pointerSize : Int) * 1

/-- Lines 120-121: the number of bytes the two `SDL_memcpy` calls store in
`key_name`. -/
def keyNameWritten (buffer : Nat → Char) (tmp : Int) : Nat :=
  SDL_strlen reg_key_root +
    ((normalizePath_loop (tmp - 4).toNat 0 fun k => buffer (k + 4)).1 + 1)

/-- Lines 144-150: the positions `j + k` of `device_name` read by the loop
`for(k=0;k<5;++k)`; the arguments are those of `wacom_k`. -/
def wacom_k_reads (device_name : List Char) (j : Nat) : Nat → Nat → List Nat
  | 0, _ => []
  | n + 1, k =>
    (j + k) ::
      (if tab.getD k '\x00' ≠ SDL_tolower (device_name.getD (j + k) '\x00') then []
      else wacom_k_reads device_name j n (k + 1))

/-- Lines 142-156: for every start position `j` tried by the loop
`for(j=0;j<l-5;++j)`, the positions read from it; the arguments are those of
`wacom_j`. -/
def wacom_j_reads (device_name : List Char) : Nat → Nat → List (Nat × List Nat)
  | 0, _ => []
  | n + 1, j =>
    (j, wacom_k_reads device_name j 5 0) ::
      (if wacom_k device_name j 5 0 = 5 then []
      else wacom_j_reads device_name n (j + 1))

/-- Lines 139-157: the start positions tried and the positions read by the scan of
one name, when `tablet` is -1. -/
def scanReads (device_name : List Char) : List (Nat × List Nat) :=
  wacom_j_reads device_name (((SDL_strlen device_name : Nat) : Int) - 5).toNat 0

/-- The platform `namedMice names` with an allocator that stops the program when
`SDL_free` is given the advanced pointer. -/
def strictAllocator (names : List (Option String)) : Platform :=
  { namedMice names with freeReturns := fun _ => false }

/-- The variables left by a pass that registered two mice and the teardown after it. -/
def staleGlobals : Globals :=
  { mice := [some 100, some 101], total_mice := 2, tablet := -1, mouse := 1 }

/-! ## Properties of `SDL_XBIOS_ListMilanModes` -/

theorem ListMilanModes_inner_eq (V : Int → Int) (a : Int) (i deviceid : Nat)
    (n j : Nat) (calls : List MilanCall) :
    ListMilanModes_inner V a i deviceid n j calls =
      calls ++ (List.range' j n).flatMap fun j =>
        MilanCall.Validmode (toShort (deviceid + j)) ::
          (if V (toShort (deviceid + j)) ≠ 0 then
            [MilanCall.SDL_XBIOS_AddMode a (milanModeinfo i deviceid j)] else []) := by
  induction n generalizing j calls with
  | zero => simp [ListMilanModes_inner]
  | succ n ih =>
    rw [ListMilanModes_inner, ih]
    by_cases h : V (toShort (deviceid + j)) = 0 <;> simp [h, List.range']

theorem ListMilanModes_outer_eq (V : Int → Int) (a : Int) (n i : Nat) (calls : List MilanCall) :
    ListMilanModes_outer V a n i calls =
      calls ++ (List.range' i n).flatMap fun i =>
        ListMilanModes_inner V a i (toUint16 (0x1000 + (i <<< 4))) (4 - 1) 1 [] := by
  induction n generalizing i calls with
  | zero => simp [ListMilanModes_outer]
  | succ n ih =>
    have hr : List.range' i (n + 1) = i :: List.range' (i + 1) n := rfl
    have h1 := ListMilanModes_inner_eq V a i (toUint16 (0x1000 + (i <<< 4))) (4 - 1) 1 calls
    have h2 := ListMilanModes_inner_eq V a i (toUint16 (0x1000 + (i <<< 4))) (4 - 1) 1 []
    rw [List.nil_append] at h2
    rw [ListMilanModes_outer, ih, hr, List.flatMap_cons, h1, ← h2, List.append_assoc]

/-- The call sequence of `SDL_XBIOS_ListMilanModes` is the probe of each catalog
combination, in catalog order. -/
theorem ListMilanModes_eq (V : Int → Int) (a : Int) :
    SDL_XBIOS_ListMilanModes V a = milanCatalog.flatMap (milanProbe V a) := by
  rw [SDL_XBIOS_ListMilanModes, ListMilanModes_outer_eq]
  simp only [ListMilanModes_inner_eq]
  simp [NUM_PREDEFINED_MODES, milanCatalog, milanProbe, List.range', milanModeinfo, toUint16,
    toShort, mode_list, mode_bpp]

theorem emittedModes_append (xs ys : List MilanCall) :
    emittedModes (xs ++ ys) = emittedModes xs ++ emittedModes ys := by
  induction xs with
  | nil => rfl
  | cons c cs ih => cases c <;> simp [emittedModes, ih]

theorem submittedModes_append (xs ys : List MilanCall) :
    submittedModes (xs ++ ys) = submittedModes xs ++ submittedModes ys := by
  induction xs with
  | nil => rfl
  | cons c cs ih => cases c <;> simp [submittedModes, ih]

theorem emittedModes_probes (V : Int → Int) (a : Int) (l : List xbiosmode_t) :
    emittedModes (l.flatMap (milanProbe V a)) = l.filter fun m => V (m.number : Int) ≠ 0 := by
  induction l with
  | nil => rfl
  | cons m ms ih =>
    rw [List.flatMap_cons, emittedModes_append, ih]
    by_cases h : V (m.number : Int) = 0 <;> simp [milanProbe, emittedModes, h]

theorem submittedModes_probes (V : Int → Int) (a : Int) (l : List xbiosmode_t) :
    submittedModes (l.flatMap (milanProbe V a)) = l.map fun m => (m.number : Int) := by
  induction l with
  | nil => rfl
  | cons m ms ih =>
    rw [List.flatMap_cons, submittedModes_append, ih]
    by_cases h : V (m.number : Int) = 0 <;> simp [milanProbe, submittedModes, emittedModes, h]

theorem emittedModes_ListMilanModes (V : Int → Int) (a : Int) :
    emittedModes (SDL_XBIOS_ListMilanModes V a) =
      milanCatalog.filter fun m => V (m.number : Int) ≠ 0 := by
  rw [ListMilanModes_eq, emittedModes_probes]

theorem submittedModes_ListMilanModes (V : Int → Int) (a : Int) :
    submittedModes (SDL_XBIOS_ListMilanModes V a) = milanCatalog.map fun m => (m.number : Int) := by
  rw [ListMilanModes_eq, submittedModes_probes]

/-- C5 (code defect): the depth loop runs `j = 1, 2, 3` only, so the fourth entry of
`mode_bpp` (depth 32) is never tried. With a platform accepting every identifier,
21 identifiers (not 7 x 4 = 28) are submitted and no descriptor of depth 32 is
emitted; with a platform accepting 0x1001, 0x1003 and 0x1014 only the two
descriptors of (640,400) are emitted and nothing for (640,480). -/
theorem ListMilanModes_never_tries_depth_32 :
    (submittedModes (SDL_XBIOS_ListMilanModes validmodeAll 1)).length = 21 ∧
    (emittedModes (SDL_XBIOS_ListMilanModes validmodeAll 1)).length = 21 ∧
    (emittedModes (SDL_XBIOS_ListMilanModes validmodeAll 1)).all (fun m => m.depth ≠ 32) = true ∧
    emittedModes (SDL_XBIOS_ListMilanModes validmodeSample 1) =
      [⟨0x1001, 640, 400, 8, false⟩, ⟨0x1003, 640, 400, 16, false⟩] := by
  decide

/-- C6: for every platform validation behaviour, the descriptors passed to
`SDL_XBIOS_AddMode` are in dimension-major, depth-minor catalog order: of any two
emitted descriptors the earlier one has the smaller `mode_list` index, or the same
`mode_list` index and the smaller `mode_bpp` index. -/
theorem ListMilanModes_emission_order (Validmode : Int → Int) (actually_add : Int) :
    (emittedModes (SDL_XBIOS_ListMilanModes Validmode actually_add)).Pairwise catalogBefore := by
  rw [emittedModes_ListMilanModes]
  have h : milanCatalog.Pairwise catalogBefore := by decide
  exact h.sublist (List.filter_sublist _)

/-- C7: the numbers of the descriptors passed to `SDL_XBIOS_AddMode` are exactly the
identifiers submitted to `Validmode` for which it answered non-zero, in the same
order; hence a descriptor with number `n` is emitted if and only if `n` was
submitted and accepted, and no emitted descriptor has a zero field. -/
theorem ListMilanModes_only_validated (Validmode : Int → Int) (actually_add : Int) :
    (emittedModes (SDL_XBIOS_ListMilanModes Validmode actually_add)).map
        (fun m => (m.number : Int)) =
      (submittedModes (SDL_XBIOS_ListMilanModes Validmode actually_add)).filter
        (fun n => Validmode n ≠ 0) ∧
    (∀ n : Int,
      (∃ m ∈ emittedModes (SDL_XBIOS_ListMilanModes Validmode actually_add),
          (m.number : Int) = n) ↔
        (n ∈ submittedModes (SDL_XBIOS_ListMilanModes Validmode actually_add) ∧
          Validmode n ≠ 0)) ∧
    (emittedModes (SDL_XBIOS_ListMilanModes Validmode actually_add)).all
      (fun m => m.number ≠ 0 ∧ m.width ≠ 0 ∧ m.height ≠ 0 ∧ m.depth ≠ 0) = true := by
  rw [emittedModes_ListMilanModes, submittedModes_ListMilanModes]
  refine ⟨?_, ?_, ?_⟩
  · rw [List.filter_map]
    rfl
  · intro n
    simp only [List.mem_filter, List.mem_map, decide_eq_true_eq]
    constructor
    · rintro ⟨m, ⟨hm, hv⟩, rfl⟩
      exact ⟨⟨m, hm, rfl⟩, hv⟩
    · rintro ⟨⟨m, hm, rfl⟩, hv⟩
      exact ⟨m, ⟨hm, hv⟩, rfl⟩
  · rw [List.all_eq_true]
    intro m hm
    have hall : milanCatalog.all
        (fun m => m.number ≠ 0 ∧ m.width ≠ 0 ∧ m.height ≠ 0 ∧ m.depth ≠ 0) = true := by decide
    exact List.all_eq_true.mp hall m (List.mem_of_mem_filter hm)

/-- C8: for every platform validation behaviour, every descriptor emitted by
`SDL_XBIOS_ListMilanModes` has its (width, height) pair in `mode_list` and its depth
in `mode_bpp`. -/
theorem ListMilanModes_in_catalog (Validmode : Int → Int) (actually_add : Int)
    (m : xbiosmode_t)
    (hm : m ∈ emittedModes (SDL_XBIOS_ListMilanModes Validmode actually_add)) :
    (⟨m.width, m.height⟩ : predefined_mode_t) ∈ mode_list ∧ m.depth ∈ mode_bpp := by
  rw [emittedModes_ListMilanModes] at hm
  have hall : ∀ m ∈ milanCatalog,
      (⟨m.width, m.height⟩ : predefined_mode_t) ∈ mode_list ∧ m.depth ∈ mode_bpp := by decide
  exact hall m (List.mem_of_mem_filter hm)

/-- Witness for C8: the descriptor of (800,608) at depth 16,
emitted when the platform accepts everything. -/
theorem ListMilanModes_in_catalog_witness :
    (⟨0x1023, 800, 608, 16, false⟩ : xbiosmode_t) ∈
        emittedModes (SDL_XBIOS_ListMilanModes validmodeAll 0) ∧
      ((⟨800, 608⟩ : predefined_mode_t) ∈ mode_list ∧ 16 ∈ mode_bpp) :=
  ⟨by decide, ListMilanModes_in_catalog validmodeAll 0 ⟨0x1023, 800, 608, 16, false⟩ (by decide)⟩

/-! ## Properties of `WIN_InitMouse` -/

theorem setIndexIdCalls_append (xs ys : List Call) :
    setIndexIdCalls (xs ++ ys) = setIndexIdCalls xs ++ setIndexIdCalls ys := by
  induction xs with
  | nil => rfl
  | cons c cs ih => cases c <;> simp [setIndexIdCalls, ih]

theorem addMouseIndices_append (xs ys : List Call) :
    addMouseIndices (xs ++ ys) = addMouseIndices xs ++ addMouseIndices ys := by
  induction xs with
  | nil => rfl
  | cons c cs ih => cases c <;> simp [addMouseIndices, ih]

theorem WIN_InitMouse_body_skip (p : Platform) (i : Nat) (d : RAWINPUTDEVICELIST)
    (s : LoopState) (hd : d.dwType ≠ RIM_TYPEMOUSE) : WIN_InitMouse_body p i d s = s := by
  simp [WIN_InitMouse_body, hd]

theorem WIN_InitMouse_body_mouse (p : Platform) (i : Nat) (d : RAWINPUTDEVICELIST)
    (s : LoopState) (hd : d.dwType = RIM_TYPEMOUSE) :
    WIN_InitMouse_body p i d s =
      registerMouse p i d.hDevice (resolveName p i (lookupKey p i d s.tmp))
        (beforeRegister p i d s) := by
  by_cases h : classifyTablet s.tablet s.index
      (resolveName p i (lookupKey p i d s.tmp)) = (s.index : Int) <;>
    (simp only [lookupKey] at h
     simp [WIN_InitMouse_body, hd, beforeRegister, lookupKey, registerMouse, h])

theorem wacom_j_cases (device_name : List Char) (index : Nat) (n j : Nat) (tablet : Int) :
    wacom_j device_name index n j tablet = tablet ∨
      wacom_j device_name index n j tablet = (index : Int) := by
  induction n generalizing j with
  | zero => exact Or.inl rfl
  | succ n ih =>
    rw [wacom_j]
    split
    · exact Or.inr rfl
    · exact ih (j + 1)

theorem classifyTablet_of_set (tablet : Int) (index : Nat) (device_name : List Char)
    (h : tablet ≠ -1) : classifyTablet tablet index device_name = tablet := by
  simp [classifyTablet, h]

theorem classifyTablet_cases (tablet : Int) (index : Nat) (device_name : List Char) :
    classifyTablet tablet index device_name = tablet ∨
      (tablet = -1 ∧ classifyTablet tablet index device_name = (index : Int)) := by
  by_cases h : tablet = -1
  · rcases wacom_j_cases device_name index
        (((SDL_strlen device_name : Nat) : Int) - 5).toNat 0 tablet with h1 | h1
    · left; simp [classifyTablet, h] at h1 ⊢; exact h1
    · right; refine ⟨h, ?_⟩; simp [classifyTablet, h] at h1 ⊢; exact h1
  · exact Or.inl (classifyTablet_of_set tablet index device_name h)

theorem registerMouse_index (p : Platform) (i hDevice : Nat) (device_name : List Char)
    (s : LoopState) : (registerMouse p i hDevice device_name s).index = s.index + 1 := by
  by_cases h : classifyTablet s.tablet s.index device_name = (s.index : Int) <;>
    simp [registerMouse, h]

theorem registerMouse_tablet (p : Platform) (i hDevice : Nat) (device_name : List Char)
    (s : LoopState) :
    (registerMouse p i hDevice device_name s).tablet =
      classifyTablet s.tablet s.index device_name := by
  by_cases h : classifyTablet s.tablet s.index device_name = (s.index : Int) <;>
    simp [registerMouse, h]

theorem registerMouse_calls (p : Platform) (i hDevice : Nat) (device_name : List Char)
    (s : LoopState) :
    (registerMouse p i hDevice device_name s).calls =
      s.calls ++ Call.SDL_SetIndexId s.index s.index ::
        (if classifyTablet s.tablet s.index device_name = (s.index : Int) then
          [Call.WTInfo, Call.SDL_AddMouse s.index (cString device_name)
            (p.pressure i).axMax (p.pressure i).axMin]
        else [Call.SDL_AddMouse s.index (cString device_name) 0 0]) := by
  by_cases h : classifyTablet s.tablet s.index device_name = (s.index : Int) <;>
    simp [registerMouse, h]

/-- An invariant of the loop state that every iteration preserves holds after the loop. -/
theorem WIN_InitMouse_loop_invariant (p : Platform) (P : LoopState → Prop)
    (hbody : ∀ i d s, P s → P (WIN_InitMouse_body p i d s))
    (ds : List RAWINPUTDEVICELIST) (i : Nat) (s : LoopState) (hs : P s) :
    P (WIN_InitMouse_loop p ds i s) := by
  induction ds generalizing i s with
  | nil => exact hs
  | cons d ds ih =>
    rw [WIN_InitMouse_loop]
    split
    · exact hs
    · exact ih (i + 1) _ (hbody i d s hs)

theorem WIN_InitMouse_body_registers (p : Platform) (i : Nat) (d : RAWINPUTDEVICELIST)
    (s : LoopState) (hd : d.dwType = RIM_TYPEMOUSE) :
    (WIN_InitMouse_body p i d s).index = s.index + 1 ∧
    setIndexIdCalls (WIN_InitMouse_body p i d s).calls =
      setIndexIdCalls s.calls ++ [((s.index : Int), (s.index : Int))] ∧
    addMouseIndices (WIN_InitMouse_body p i d s).calls =
      addMouseIndices s.calls ++ [(s.index : Int)] := by
  rw [WIN_InitMouse_body_mouse p i d s hd, registerMouse_index, registerMouse_calls]
  refine ⟨rfl, ?_, ?_⟩
  · split <;>
      simp [beforeRegister, setIndexIdCalls_append, setIndexIdCalls]
  · split <;>
      simp [beforeRegister, addMouseIndices_append, addMouseIndices]

theorem WIN_InitMouse_body_dense (p : Platform) (i : Nat) (d : RAWINPUTDEVICELIST)
    (s : LoopState) (hs : denseSoFar s) : denseSoFar (WIN_InitMouse_body p i d s) := by
  by_cases hd : d.dwType = RIM_TYPEMOUSE
  · obtain ⟨h1, h2, h3⟩ := WIN_InitMouse_body_registers p i d s hd
    unfold denseSoFar
    rw [h1, h2, h3, hs.1, hs.2, List.range_succ, List.map_append, List.map_append]
    exact ⟨rfl, rfl⟩
  · rw [WIN_InitMouse_body_skip p i d s hd]
    exact hs

theorem WIN_InitMouse_body_tablet (p : Platform) (i : Nat) (d : RAWINPUTDEVICELIST)
    (s : LoopState) (h : s.tablet ≠ -1) : (WIN_InitMouse_body p i d s).tablet = s.tablet := by
  by_cases hd : d.dwType = RIM_TYPEMOUSE
  · rw [WIN_InitMouse_body_mouse p i d s hd, registerMouse_tablet]
    exact classifyTablet_of_set _ _ _ h
  · rw [WIN_InitMouse_body_skip p i d s hd]

theorem WIN_InitMouse_body_sticky (p : Platform) (i : Nat) (d : RAWINPUTDEVICELIST)
    (s : LoopState) (hs : stickySoFar s) : stickySoFar (WIN_InitMouse_body p i d s) := by
  by_cases hd : d.dwType = RIM_TYPEMOUSE
  · have hb : (beforeRegister p i d s).calls.count Call.WTInfo = s.calls.count Call.WTInfo := by
      simp [beforeRegister, List.count_append, List.count_cons]
    have hbt : (beforeRegister p i d s).tablet = s.tablet := rfl
    have hbi : (beforeRegister p i d s).index = s.index := rfl
    unfold stickySoFar
    rw [WIN_InitMouse_body_mouse p i d s hd, registerMouse_tablet, registerMouse_index,
      registerMouse_calls, hbt, hbi]
    rcases hs with ⟨ht, hc⟩ | ⟨h0, hlt, hc⟩
    · rcases classifyTablet_cases s.tablet s.index
          (resolveName p i (lookupKey p i d s.tmp)) with hk | ⟨_, hk⟩
      · left
        have hne : ¬ (s.tablet = (s.index : Int)) := by omega
        rw [hk, if_neg hne]
        refine ⟨ht, ?_⟩
        simp [List.count_append, List.count_cons, hb, hc]
      · right
        rw [hk, if_pos rfl]
        refine ⟨by omega, by push_cast; omega, ?_⟩
        simp [List.count_append, List.count_cons, hb, hc]
    · right
      have hne1 : s.tablet ≠ -1 := by omega
      have hne : ¬ (s.tablet = (s.index : Int)) := by omega
      rw [classifyTablet_of_set _ _ _ hne1, if_neg hne]
      refine ⟨h0, by push_cast; omega, ?_⟩
      simp [List.count_append, List.count_cons, hb, hc]
  · rw [WIN_InitMouse_body_skip p i d s hd]
    exact hs

theorem cString_default_append (rest : List Char) :
    cString (default_device_name ++ rest) = default_device_name ++ cString rest := by
  unfold cString
  exact List.takeWhile_append_of_pos (by decide)

theorem resolveName_fallback (p : Platform) (i : Nat) (key_name : List Char)
    (hq : (p.regQuery i key_name).1 ≠ ERROR_SUCCESS) :
    default_device_name <+: cString (resolveName p i key_name) := by
  have hlen : SDL_strlen default_device_name = 18 := by decide
  have htake : default_device_name.take 18 = default_device_name := by decide
  unfold resolveName
  simp only [hq, ne_eq, not_false_eq_true, if_true]
  unfold SDL_memcpy
  rw [hlen, htake, cString_default_append]
  exact ⟨_, rfl⟩

/-- C2 (code defect): the scan tries the start positions `j < l - 5` only, so a match
that ends at the last character is never seen. A single mouse named "Wacom", and one
whose name ends in "wacom", are registered as ordinary mice and `tablet` stays -1;
with one more character after the match the device is classified. -/
theorem WIN_InitMouse_misses_final_wacom :
    (WIN_InitMouse (namedMice [some "Wacom"]) initialGlobals).1.tablet = -1 ∧
    (WIN_InitMouse (namedMice [some "Wacom"]) initialGlobals).2.count Call.WTInfo = 0 ∧
    Call.SDL_AddMouse 0 "Wacom".toList 0 0 ∈
      (WIN_InitMouse (namedMice [some "Wacom"]) initialGlobals).2 ∧
    (WIN_InitMouse (namedMice [some "Bamboo by wacom"]) initialGlobals).1.tablet = -1 ∧
    (WIN_InitMouse (namedMice [some "Wacom "]) initialGlobals).1.tablet = 0 := by
  decide

/-- C4 as stated fails: the device registered at index 3, whose name lookup fails, is
registered under the name "Pointing device xx", not "Pointing device 03". -/
theorem WIN_InitMouse_fallback_name_not_indexed :
    (∀ key_name : List Char, (fourthUnnamed.regQuery 3 key_name).1 ≠ ERROR_SUCCESS) ∧
    addMouseNames (WIN_InitMouse fourthUnnamed initialGlobals).2 =
      [(0, "Mouse A".toList), (1, "Mouse B".toList), (2, "Mouse C".toList),
        (3, "Pointing device xx".toList)] ∧
    fallbackNameSpec 3 = "Pointing device 03".toList ∧
    ¬ ((3 : Int), fallbackNameSpec 3) ∈
      addMouseNames (WIN_InitMouse fourthUnnamed initialGlobals).2 := by
  refine ⟨fun _ => (by decide : (2 : Int) ≠ 0), by decide, by decide, by decide⟩

/-- C4 (amended): for every mouse-class device whose `DeviceDesc` value query fails,
the iteration ends with the call of `SDL_AddMouse` for the current index, and the
name passed begins with the constant default name "Pointing device xx"; the index
is not written into the name. -/
theorem WIN_InitMouse_fallback_name (p : Platform) (i : Nat) (d : RAWINPUTDEVICELIST)
    (s : LoopState) (hd : d.dwType = RIM_TYPEMOUSE)
    (hq : (p.regQuery i (lookupKey p i d s.tmp)).1 ≠ ERROR_SUCCESS) :
    ∃ (earlier : List Call) (name : List Char) (pressure_max pressure_min : Int),
      (WIN_InitMouse_body p i d s).calls =
        earlier ++ [Call.SDL_AddMouse s.index name pressure_max pressure_min] ∧
      default_device_name <+: name ∧
      default_device_name = "Pointing device xx".toList := by
  rw [WIN_InitMouse_body_mouse p i d s hd, registerMouse_calls]
  have hpre := resolveName_fallback p i (lookupKey p i d s.tmp) hq
  have hbi : (beforeRegister p i d s).index = s.index := rfl
  rw [hbi]
  split
  · exact ⟨(beforeRegister p i d s).calls ++ [Call.SDL_SetIndexId s.index s.index, Call.WTInfo],
      cString (resolveName p i (lookupKey p i d s.tmp)), (p.pressure i).axMax,
      (p.pressure i).axMin, by simp, hpre, rfl⟩
  · exact ⟨(beforeRegister p i d s).calls ++ [Call.SDL_SetIndexId s.index s.index],
      cString (resolveName p i (lookupKey p i d s.tmp)), 0, 0, by simp, hpre, rfl⟩

/-- Witness for the amended C4: a single mouse that is not in the name
database. -/
theorem WIN_InitMouse_fallback_name_witness :
    (⟨100, RIM_TYPEMOUSE⟩ : RAWINPUTDEVICELIST).dwType = RIM_TYPEMOUSE ∧
      ((namedMice [none]).regQuery 0
        (lookupKey (namedMice [none]) 0 ⟨100, RIM_TYPEMOUSE⟩ firstIteration.tmp)).1 ≠
          ERROR_SUCCESS ∧
      ∃ (earlier : List Call) (name : List Char) (pressure_max pressure_min : Int),
        (WIN_InitMouse_body (namedMice [none]) 0 ⟨100, RIM_TYPEMOUSE⟩ firstIteration).calls =
          earlier ++ [Call.SDL_AddMouse firstIteration.index name pressure_max pressure_min] ∧
        default_device_name <+: name ∧
        default_device_name = "Pointing device xx".toList :=
  ⟨rfl, by decide,
    WIN_InitMouse_fallback_name (namedMice [none]) 0 ⟨100, RIM_TYPEMOUSE⟩ firstIteration rfl
      (by decide)⟩

/-- C9: if the count query reports failure, the only call `WIN_InitMouse` makes is
that query: no `SDL_SetIndexId`, no `SDL_AddMouse`, no query for any device; and
`mice`, `total_mice`, `tablet` and `data->mouse` are as on entry. -/
theorem WIN_InitMouse_count_failure (p : Platform) (g : Globals)
    (hcount : p.countResult ≠ 0) :
    WIN_InitMouse p g = (g, [Call.GetRawInputDeviceList false]) ∧
    setIndexIdCalls (WIN_InitMouse p g).2 = [] ∧
    addMouseIndices (WIN_InitMouse p g).2 = [] := by
  simp [WIN_InitMouse, hcount, setIndexIdCalls, addMouseIndices]

/-- Witness for C9: the count query answers `(UINT)-1`. -/
theorem WIN_InitMouse_count_failure_witness :
    failingCount.countResult ≠ 0 ∧
      WIN_InitMouse failingCount initialGlobals =
        (initialGlobals, [Call.GetRawInputDeviceList false]) :=
  ⟨by decide, (WIN_InitMouse_count_failure failingCount initialGlobals (by decide)).1⟩

/-- C10 (code defect): the early `return` after a failed count query skips
`total_mice=index`. After a pass that registered two mice and a teardown, a pass
whose count query fails registers nothing and returns with `total_mice` still 2,
and the following `WIN_QuitMouse` deletes the indices 0 and 1. -/
theorem WIN_InitMouse_abort_keeps_stale_count :
    (WIN_InitMouse (namedMice [some "Mouse A", some "Mouse B"]) initialGlobals).1.total_mice = 2 ∧
    addMouseIndices (WIN_InitMouse failingCount
      (WIN_QuitMouse
        (WIN_InitMouse (namedMice [some "Mouse A", some "Mouse B"]) initialGlobals).1).1).2 = [] ∧
    (WIN_InitMouse failingCount
      (WIN_QuitMouse
        (WIN_InitMouse (namedMice [some "Mouse A", some "Mouse B"]) initialGlobals).1).1).1.total_mice
      = 2 ∧
    (WIN_QuitMouse (WIN_InitMouse failingCount
      (WIN_QuitMouse
        (WIN_InitMouse (namedMice [some "Mouse A", some "Mouse B"]) initialGlobals).1).1).1).2 =
      [Call.SDL_DelMouse 0, Call.SDL_DelMouse 1] := by
  decide

/-! ## Further properties of `SDL_XBIOS_ListMilanModes` -/

theorem forwardedFlags_append (xs ys : List MilanCall) :
    forwardedFlags (xs ++ ys) = forwardedFlags xs ++ forwardedFlags ys := by
  induction xs with
  | nil => rfl
  | cons c cs ih => cases c <;> simp [forwardedFlags, ih]

theorem forwardedFlags_probes (V : Int → Int) (a : Int) (l : List xbiosmode_t) :
    forwardedFlags (l.flatMap (milanProbe V a)) =
      (l.filter fun m => V (m.number : Int) ≠ 0).map fun _ => a := by
  induction l with
  | nil => rfl
  | cons m ms ih =>
    rw [List.flatMap_cons, forwardedFlags_append, ih]
    by_cases h : V (m.number : Int) = 0 <;> simp [milanProbe, forwardedFlags, h]

/-- C18: for a fixed validation function, `SDL_XBIOS_ListMilanModes` submits the same
identifiers and passes the same descriptors to `SDL_XBIOS_AddMode` for any two
values of `actually_add`, so the two passes emit equally many modes; and every
`SDL_XBIOS_AddMode` call receives the value of `actually_add` unchanged. -/
theorem ListMilanModes_dry_run_equals_populate (Validmode : Int → Int)
    (actually_add other : Int) :
    submittedModes (SDL_XBIOS_ListMilanModes Validmode actually_add) =
      submittedModes (SDL_XBIOS_ListMilanModes Validmode other) ∧
    emittedModes (SDL_XBIOS_ListMilanModes Validmode actually_add) =
      emittedModes (SDL_XBIOS_ListMilanModes Validmode other) ∧
    (emittedModes (SDL_XBIOS_ListMilanModes Validmode 0)).length =
      (emittedModes (SDL_XBIOS_ListMilanModes Validmode actually_add)).length ∧
    forwardedFlags (SDL_XBIOS_ListMilanModes Validmode actually_add) =
      (emittedModes (SDL_XBIOS_ListMilanModes Validmode actually_add)).map
        fun _ => actually_add := by
  refine ⟨?_, ?_, ?_, ?_⟩
  · simp only [submittedModes_ListMilanModes]
  · simp only [emittedModes_ListMilanModes]
  · simp only [emittedModes_ListMilanModes]
  · rw [ListMilanModes_eq, forwardedFlags_probes, emittedModes_probes]

/-- C19 as stated fails: the descriptor of the pair at position 0, (640,400), and the
depth at position 0, 8 bits, has the number 0x1001, not 0x1000 + (0 << 4) + 0; the
identifier 0x1000 is not submitted at all. -/
theorem ListMilanModes_identifier_not_zero_based :
    mode_list[0]? = some ⟨640, 400⟩ ∧ mode_bpp[0]? = some 8 ∧
    (⟨0x1001, 640, 400, 8, false⟩ : xbiosmode_t) ∈
      emittedModes (SDL_XBIOS_ListMilanModes validmodeAll 1) ∧
    compositeIdSpec 0 0 = 0x1000 ∧
    ¬ (∃ m ∈ emittedModes (SDL_XBIOS_ListMilanModes validmodeAll 1),
        m.width = 640 ∧ m.height = 400 ∧ m.depth = 8 ∧ m.number = compositeIdSpec 0 0) ∧
    ¬ ((compositeIdSpec 0 0 : Nat) : Int) ∈
      submittedModes (SDL_XBIOS_ListMilanModes validmodeAll 1) := by
  decide

/-- C19 (amended): every emitted descriptor carries the pair at some position `i` of
`mode_list`, the depth at some position `d` of `mode_bpp` and `doubleline` false;
its number is 0x1000 + (i << 4) + d + 1, the depth loop counting from 1; and this
number is the identifier that was submitted to the platform and accepted. -/
theorem ListMilanModes_composite_identifier (Validmode : Int → Int) (actually_add : Int)
    (m : xbiosmode_t)
    (hm : m ∈ emittedModes (SDL_XBIOS_ListMilanModes Validmode actually_add)) :
    mode_list[modeListIndex m]? = some ⟨m.width, m.height⟩ ∧
    mode_bpp[modeBppIndex m]? = some m.depth ∧
    m.number = 0x1000 + (modeListIndex m <<< 4) + modeBppIndex m + 1 ∧
    m.doubleline = false ∧
    (m.number : Int) ∈ submittedModes (SDL_XBIOS_ListMilanModes Validmode actually_add) ∧
    Validmode (m.number : Int) ≠ 0 := by
  rw [emittedModes_ListMilanModes, List.mem_filter] at hm
  rw [submittedModes_ListMilanModes]
  have hall : ∀ m ∈ milanCatalog,
      mode_list[modeListIndex m]? = some ⟨m.width, m.height⟩ ∧
      mode_bpp[modeBppIndex m]? = some m.depth ∧
      m.number = 0x1000 + (modeListIndex m <<< 4) + modeBppIndex m + 1 ∧
      m.doubleline = false := by decide
  obtain ⟨h1, h2, h3, h4⟩ := hall m hm.1
  exact ⟨h1, h2, h3, h4, List.mem_map.mpr ⟨m, hm.1, rfl⟩, by simpa using hm.2⟩

/-- Witness for the amended C19: the descriptor of (800,608) at depth 16. -/
theorem ListMilanModes_composite_identifier_witness :
    (⟨0x1023, 800, 608, 16, false⟩ : xbiosmode_t) ∈
        emittedModes (SDL_XBIOS_ListMilanModes validmodeAll 0) ∧
      (⟨0x1023, 800, 608, 16, false⟩ : xbiosmode_t).number = 0x1000 + (2 <<< 4) + 2 + 1 :=
  ⟨by decide,
    (ListMilanModes_composite_identifier validmodeAll 0 ⟨0x1023, 800, 608, 16, false⟩
      (by decide)).2.2.1⟩

/-- C20: the identifiers submitted to `Validmode` are the same list for every
validation function and every `actually_add`; no identifier occurs twice in it; it
has at most 7 x 4 = 28 elements; and each is 0x1000 + 16*i + j with `i < 7` and
`j` between 1 and 4. -/
theorem ListMilanModes_bounded_probe_set (Validmode other : Int → Int)
    (actually_add flag : Int) :
    submittedModes (SDL_XBIOS_ListMilanModes Validmode actually_add) =
      submittedModes (SDL_XBIOS_ListMilanModes other flag) ∧
    (submittedModes (SDL_XBIOS_ListMilanModes Validmode actually_add)).Nodup ∧
    (submittedModes (SDL_XBIOS_ListMilanModes Validmode actually_add)).length ≤ 7 * 4 ∧
    ∀ n ∈ submittedModes (SDL_XBIOS_ListMilanModes Validmode actually_add),
      ∃ i j : Nat, i < 7 ∧ 1 ≤ j ∧ j ≤ 4 ∧ n = ((0x1000 + 16 * i + j : Nat) : Int) := by
  simp only [submittedModes_ListMilanModes, true_and]
  refine ⟨by decide, by decide, ?_⟩
  intro n hn
  have hall : ∀ n ∈ milanCatalog.map (fun m => (m.number : Int)),
      ∃ i ∈ List.range 7, ∃ j ∈ List.range 5, 1 ≤ j ∧
        n = ((0x1000 + 16 * i + j : Nat) : Int) := by decide
  obtain ⟨i, hi, j, hj, h1, h2⟩ := hall n hn
  exact ⟨i, j, List.mem_range.mp hi, h1, by have := List.mem_range.mp hj; omega, h2⟩

/-! ## Further properties of `WIN_InitMouse` and `WIN_QuitMouse` -/

theorem WIN_QuitMouse_loop_eq (n i : Nat) (calls : List Call) :
    WIN_QuitMouse_loop n i calls =
      calls ++ (List.range' i n).map fun (k : Nat) => Call.SDL_DelMouse k := by
  induction n generalizing i calls with
  | zero => simp [WIN_QuitMouse_loop]
  | succ n ih =>
    have hr : List.range' i (n + 1) = i :: List.range' (i + 1) n := rfl
    rw [WIN_QuitMouse_loop, ih, hr]
    simp

theorem deviceTable_append (xs ys : List Call) (table : List Int) :
    deviceTable (xs ++ ys) table = deviceTable ys (deviceTable xs table) := by
  simp [deviceTable, List.foldl_append]

theorem deviceTable_delete_all (n i : Nat) (table : List Int)
    (h : ∀ x ∈ table, (i : Int) ≤ x ∧ x < (i : Int) + (n : Int)) :
    deviceTable ((List.range' i n).map fun (k : Nat) => Call.SDL_DelMouse k) table = [] := by
  induction n generalizing i table with
  | zero =>
    apply List.eq_nil_iff_forall_not_mem.mpr
    intro x hx
    have := h x hx
    omega
  | succ n ih =>
    have hr : List.range' i (n + 1) = i :: List.range' (i + 1) n := rfl
    rw [hr, List.map_cons]
    show deviceTable _ (tableStep table (Call.SDL_DelMouse (i : Int))) = []
    apply ih
    intro x hx
    simp only [tableStep, List.mem_filter, decide_eq_true_eq] at hx
    have := h x hx.1
    have hne := hx.2
    push_cast at this ⊢
    omega

/-- The occupied indices of the table built by the calls so far lie below `index`. -/
theorem WIN_InitMouse_body_table (p : Platform) (i : Nat) (d : RAWINPUTDEVICELIST)
    (s : LoopState)
    (hs : ∀ x ∈ deviceTable s.calls [], (0 : Int) ≤ x ∧ x < (s.index : Int)) :
    ∀ x ∈ deviceTable (WIN_InitMouse_body p i d s).calls [],
      (0 : Int) ≤ x ∧ x < ((WIN_InitMouse_body p i d s).index : Int) := by
  by_cases hd : d.dwType = RIM_TYPEMOUSE
  · rw [WIN_InitMouse_body_mouse p i d s hd, registerMouse_index, registerMouse_calls]
    have hbi : (beforeRegister p i d s).index = s.index := rfl
    have hbc : deviceTable (beforeRegister p i d s).calls [] = deviceTable s.calls [] := by
      simp [beforeRegister, deviceTable, List.foldl_append, tableStep]
    rw [hbi, deviceTable_append, hbc]
    intro x hx
    have hmem : x = (s.index : Int) ∨ x ∈ deviceTable s.calls [] := by
      split at hx
      · simp only [deviceTable, List.foldl_cons, List.foldl_nil, tableStep, List.mem_cons,
          List.mem_filter] at hx
        rcases hx with hx | hx
        · exact Or.inl hx
        · exact Or.inr hx.1
      · simp only [deviceTable, List.foldl_cons, List.foldl_nil, tableStep, List.mem_cons,
          List.mem_filter] at hx
        rcases hx with hx | hx
        · exact Or.inl hx
        · exact Or.inr hx.1
    rcases hmem with hx | hx
    · subst hx
      push_cast
      omega
    · have := hs x hx
      push_cast
      omega
  · rw [WIN_InitMouse_body_skip p i d s hd]
    exact hs

/-- C11 (code defect): `GetRawInputDeviceInfoA` returns a `UINT`, and its failure
result `(UINT)-1` is not below 0, so neither `continue` is ever taken. A mouse whose
two path queries fail is registered all the same, at index 0, and `total_mice`
becomes 1. -/
theorem WIN_InitMouse_registers_after_failed_query :
    (failingInfo.infoSize 0 100 0).1 = 4294967295 ∧
    (failingInfo.infoName 0 100 0).1 = 4294967295 ∧
    addMouseNames (WIN_InitMouse failingInfo initialGlobals).2 =
      [(0, "Pointing device xx".toList)] ∧
    (WIN_InitMouse failingInfo initialGlobals).1.total_mice = 1 ∧
    (WIN_InitMouse failingInfo initialGlobals).1.mice = [some 100] := by
  decide

/-- C14 (code defect): the key derivation advances `buffer` by 4 and stores the
terminator at `buffer[j]` without checking that the reported length is at least 4.
For a reported length of 0 (one byte allocated) and of 3 (four bytes allocated) it
writes and reads offset 4 of the allocation, which lies outside it; for the sample
path of length 29 every offset lies inside the 30 bytes. -/
theorem keyName_touches_outside_short_buffer :
    pathBufferSize 0 = 1 ∧ pathOffsetsTouched (bytesOf "") 0 = [4, 4] ∧
    (pathOffsetsTouched (bytesOf "") 0).all (fun k => (k : Int) < pathBufferSize 0) = false ∧
    pathBufferSize 3 = 4 ∧ pathOffsetsTouched (bytesOf "\\\\?") 3 = [4, 4] ∧
    (pathOffsetsTouched (bytesOf "\\\\?") 3).all (fun k => (k : Int) < pathBufferSize 3) = false ∧
    (failingInfo.infoName 0 100 (failingInfo.infoSize 0 100 0).2).2.1 = 0 ∧
    (pathOffsetsTouched samplePath 29).all (fun k => (k : Int) < pathBufferSize 29) = true := by
  decide

/-- C16: for every count `N = total_mice`, `WIN_QuitMouse` calls `SDL_DelMouse` for
the indices 0, 1, ..., N-1, once each and in this order, and makes no other call;
for `N = 0` it makes no call. -/
theorem WIN_QuitMouse_deletes_registered (g : Globals) (N : Nat)
    (hN : g.total_mice = (N : Int)) :
    (WIN_QuitMouse g).2 = (List.range N).map (fun (k : Nat) => Call.SDL_DelMouse k) ∧
    (N = 0 → (WIN_QuitMouse g).2 = []) := by
  have h : (WIN_QuitMouse g).2 =
      (List.range N).map (fun (k : Nat) => Call.SDL_DelMouse k) := by
    simp [WIN_QuitMouse, hN, WIN_QuitMouse_loop_eq, List.range_eq_range']
  refine ⟨h, ?_⟩
  intro h0
  rw [h, h0]
  rfl

/-- Witness for C16: the teardown after the pass over the three names. -/
theorem WIN_QuitMouse_deletes_registered_witness :
    (WIN_InitMouse threeNames initialGlobals).1.total_mice = ((3 : Nat) : Int) ∧
      (WIN_QuitMouse (WIN_InitMouse threeNames initialGlobals).1).2 =
        [Call.SDL_DelMouse 0, Call.SDL_DelMouse 1, Call.SDL_DelMouse 2] :=
  ⟨by decide,
    (WIN_QuitMouse_deletes_registered (WIN_InitMouse threeNames initialGlobals).1 3
      (by decide)).1⟩

theorem registerMouse_mice (p : Platform) (i hDevice : Nat) (device_name : List Char)
    (s : LoopState) :
    (registerMouse p i hDevice device_name s).mice = s.mice.set s.index (some hDevice) := by
  by_cases h : classifyTablet s.tablet s.index device_name = (s.index : Int) <;>
    simp [registerMouse, h]

theorem normalizePath_loop_spec (n j : Nat) (b : Nat → Char) :
    j ≤ (normalizePath_loop n j b).1 ∧
    (∀ k < j, (normalizePath_loop n j b).2 k = b k) ∧
    (List.range' j ((normalizePath_loop n j b).1 - j)).map (normalizePath_loop n j b).2 =
      (((List.range' j n).map b).takeWhile fun c => c ≠ '\x7b').map
        fun c => if c = '#' then '\\' else c := by
  induction n generalizing j b with
  | zero => simp [normalizePath_loop]
  | succ n ih =>
    have hr : List.range' j (n + 1) = j :: List.range' (j + 1) n := rfl
    rw [normalizePath_loop]
    by_cases h1 : b j = '#'
    · obtain ⟨hle, hkeep, hseg⟩ := ih (j + 1) (fun k => if k = j then '\\' else b k)
      simp only [h1, if_true]
      have hsame : (List.range' (j + 1) n).map (fun k => if k = j then '\\' else b k) =
          (List.range' (j + 1) n).map b := by
        apply List.map_congr_left
        intro k hk
        have := (List.mem_range'_1.mp hk).1
        have hne : k ≠ j := by omega
        simp [hne]
      have hlen : (normalizePath_loop n (j + 1) (fun k => if k = j then '\\' else b k)).1 - j =
          ((normalizePath_loop n (j + 1) (fun k => if k = j then '\\' else b k)).1 - (j + 1)) + 1 := by
        omega
      have hj : (normalizePath_loop n (j + 1) (fun k => if k = j then '\\' else b k)).2 j = '\\' := by
        rw [hkeep j (by omega)]; simp
      refine ⟨by omega, ?_, ?_⟩
      · intro k hk
        rw [hkeep k (by omega)]
        have hne : k ≠ j := by omega
        simp [hne]
      · rw [hlen, hr]
        have hr2 : ∀ m, List.range' j (m + 1) = j :: List.range' (j + 1) m := fun _ => rfl
        rw [hr2, List.map_cons, List.map_cons, hseg, hsame, hj, h1]
        simp
    · by_cases h2 : b j = '\x7b'
      · simp [h1, h2, hr]
      · obtain ⟨hle, hkeep, hseg⟩ := ih (j + 1) b
        simp only [h1, h2, if_false]
        have hlen : (normalizePath_loop n (j + 1) b).1 - j =
            ((normalizePath_loop n (j + 1) b).1 - (j + 1)) + 1 := by omega
        refine ⟨by omega, fun k hk => hkeep k (by omega), ?_⟩
        have hr2 : ∀ m, List.range' j (m + 1) = j :: List.range' (j + 1) m := fun _ => rfl
        rw [hlen, hr, hr2, List.map_cons, List.map_cons, hseg, hkeep j (by omega)]
        simp [h1, h2]

theorem takeWhile_append_stop {α : Type} (q : α → Bool) (l : List α) (a : α) (ha : q a = false) :
    (l ++ [a]).takeWhile q = l.takeWhile q := by
  induction l with
  | nil => simp [List.takeWhile, ha]
  | cons x xs ih =>
    by_cases hx : q x = true
    · simp [List.takeWhile, hx, ih]
    · simp [List.takeWhile, hx]

theorem keyNameBytes_eq (buffer : Nat → Char) (tmp : Int) :
    keyNameBytes buffer tmp = reg_key_root ++ keySegmentSpec buffer tmp ++ ['\x00'] := by
  have hroot : SDL_memcpy [] reg_key_root (SDL_strlen reg_key_root) = reg_key_root := by decide
  obtain ⟨_, _, hseg⟩ := normalizePath_loop_spec (tmp - 4).toNat 0 (fun k => buffer (k + 4))
  unfold keyNameBytes keySegmentSpec
  simp only [hroot, List.range_succ, List.map_append, List.map_cons, List.map_nil, if_true,
    List.append_assoc]
  congr 1
  congr 1
  rw [List.range_eq_range', List.range_eq_range', ← hseg, Nat.sub_zero]
  apply List.map_congr_left
  intro k hk
  have := (List.mem_range'_1.mp hk).2
  have hne : k ≠ (normalizePath_loop (tmp - 4).toNat 0 fun k => buffer (k + 4)).1 := by omega
  simp [hne]

theorem keySegmentSpec_clean (buffer : Nat → Char) (tmp : Int) :
    ¬ '#' ∈ keySegmentSpec buffer tmp ∧ ¬ '\x7b' ∈ keySegmentSpec buffer tmp := by
  unfold keySegmentSpec
  constructor
  · intro h
    obtain ⟨c, _, hc⟩ := List.mem_map.mp h
    by_cases h1 : c = '#'
    · simp [h1] at hc
    · simp [h1] at hc
  · intro h
    obtain ⟨c, hmem, hc⟩ := List.mem_map.mp h
    have hne : c ≠ '\x7b' := by simpa using List.mem_takeWhile_imp hmem
    by_cases h1 : c = '#'
    · simp [h1] at hc
    · simp [h1] at hc
      exact hne hc

theorem cString_keyNameBytes (buffer : Nat → Char) (tmp : Int) :
    cString (keyNameBytes buffer tmp) = reg_key_root ++ cString (keySegmentSpec buffer tmp) := by
  rw [keyNameBytes_eq, List.append_assoc]
  unfold cString
  rw [List.takeWhile_append_of_pos (by decide), takeWhile_append_stop _ _ _ (by decide)]

/-- C13: for a mouse-class device whose path has the reported length `tmp >= 4`, the
bytes stored in `key_name` are the registry root, then the path characters after
the first 4, up to the first opening brace or `tmp - 4` of them, with every '#'
replaced by a backslash, then the terminator; this segment contains no '#' and no
opening brace, and the string is the key passed to `RegOpenKeyExA`. -/
theorem WIN_InitMouse_key_normalised (p : Platform) (i : Nat) (d : RAWINPUTDEVICELIST)
    (s : LoopState) (hd : d.dwType = RIM_TYPEMOUSE)
    (htmp : 4 ≤ (p.infoName i d.hDevice (p.infoSize i d.hDevice s.tmp).2).2.1) :
    keyNameBytes (p.infoName i d.hDevice (p.infoSize i d.hDevice s.tmp).2).2.2
        (p.infoName i d.hDevice (p.infoSize i d.hDevice s.tmp).2).2.1 =
      reg_key_root ++
        keySegmentSpec (p.infoName i d.hDevice (p.infoSize i d.hDevice s.tmp).2).2.2
          (p.infoName i d.hDevice (p.infoSize i d.hDevice s.tmp).2).2.1 ++ ['\x00'] ∧
    Call.RegOpenKeyExA (reg_key_root ++ cString
        (keySegmentSpec (p.infoName i d.hDevice (p.infoSize i d.hDevice s.tmp).2).2.2
          (p.infoName i d.hDevice (p.infoSize i d.hDevice s.tmp).2).2.1)) ∈
      (WIN_InitMouse_body p i d s).calls ∧
    ¬ '#' ∈ keySegmentSpec (p.infoName i d.hDevice (p.infoSize i d.hDevice s.tmp).2).2.2
      (p.infoName i d.hDevice (p.infoSize i d.hDevice s.tmp).2).2.1 ∧
    ¬ '\x7b' ∈ keySegmentSpec (p.infoName i d.hDevice (p.infoSize i d.hDevice s.tmp).2).2.2
      (p.infoName i d.hDevice (p.infoSize i d.hDevice s.tmp).2).2.1 ∧
    reg_key_root = "System\\CurrentControlSet\\Enum\\".toList := by
  have _ := htmp
  refine ⟨keyNameBytes_eq _ _, ?_, (keySegmentSpec_clean _ _).1, (keySegmentSpec_clean _ _).2,
    rfl⟩
  rw [← cString_keyNameBytes, WIN_InitMouse_body_mouse p i d s hd, registerMouse_calls]
  simp [beforeRegister, lookupKey]

/-- Witness for C13: the sample path of length 29 gives the key
"System\CurrentControlSet\Enum\HID\VID_056A\7&1f2e\". -/
theorem WIN_InitMouse_key_normalised_witness :
    (⟨100, RIM_TYPEMOUSE⟩ : RAWINPUTDEVICELIST).dwType = RIM_TYPEMOUSE ∧
      (4 : Int) ≤ ((namedMice [none]).infoName 0 100
        ((namedMice [none]).infoSize 0 100 firstIteration.tmp).2).2.1 ∧
      Call.RegOpenKeyExA "System\\CurrentControlSet\\Enum\\HID\\VID_056A\\7&1f2e\\".toList ∈
        (WIN_InitMouse_body (namedMice [none]) 0 ⟨100, RIM_TYPEMOUSE⟩ firstIteration).calls :=
  ⟨rfl, by decide,
    (WIN_InitMouse_key_normalised (namedMice [none]) 0 ⟨100, RIM_TYPEMOUSE⟩ firstIteration rfl
      (by decide)).2.1⟩

theorem WIN_InitMouse_body_pressure (p : Platform) (i : Nat) (d : RAWINPUTDEVICELIST)
    (s : LoopState) (hs : pressureSoFar p s) : pressureSoFar p (WIN_InitMouse_body p i d s) := by
  by_cases hd : d.dwType = RIM_TYPEMOUSE
  · unfold pressureSoFar
    rw [WIN_InitMouse_body_mouse p i d s hd, registerMouse_tablet, registerMouse_index,
      registerMouse_calls]
    have hbi : (beforeRegister p i d s).index = s.index := rfl
    have hbt : (beforeRegister p i d s).tablet = s.tablet := rfl
    rw [hbi, hbt]
    have hcases := classifyTablet_cases s.tablet s.index
      (resolveName p i (lookupKey p i d s.tmp))
    have hold : ∀ c ∈ (beforeRegister p i d s).calls,
        pressureRule p (classifyTablet s.tablet s.index
          (resolveName p i (lookupKey p i d s.tmp))) c ∧ indexBelow (s.index + 1) c := by
      intro c hc
      simp only [beforeRegister, List.mem_append, List.mem_cons, List.mem_singleton,
        List.not_mem_nil, or_false] at hc
      rcases hc with hc | hc | hc | hc | hc | hc
      · obtain ⟨hr, hb⟩ := hs c hc
        cases c with
        | SDL_AddMouse idx name mx mn =>
          simp only [pressureRule, indexBelow] at hr hb ⊢
          refine ⟨?_, hb.1, by push_cast; omega⟩
          rcases hcases with hk | ⟨ht, hk⟩
          · rw [hk]; exact hr
          · rw [hk]
            right
            rcases hr with ⟨he, _⟩ | ⟨_, hz⟩
            · omega
            · exact ⟨by omega, hz⟩
        | _ => simp [pressureRule, indexBelow]
      all_goals (subst hc; simp [pressureRule, indexBelow])
    intro c hc
    rw [List.mem_append] at hc
    rcases hc with hc | hc
    · exact hold c hc
    · split at hc
      · rename_i hyes
        simp only [List.mem_cons, List.mem_singleton, List.not_mem_nil, or_false] at hc
        rcases hc with hc | hc | hc
        · subst hc; simp [pressureRule, indexBelow]
        · subst hc; simp [pressureRule, indexBelow]
        · subst hc
          simp only [pressureRule, indexBelow]
          exact ⟨Or.inl ⟨hyes.symm, i, rfl, rfl⟩, by omega, by push_cast; omega⟩
      · rename_i hno
        simp only [List.mem_cons, List.mem_singleton, List.not_mem_nil, or_false] at hc
        rcases hc with hc | hc
        · subst hc; simp [pressureRule, indexBelow]
        · subst hc
          simp only [pressureRule, indexBelow]
          exact ⟨Or.inr ⟨fun h => hno h.symm, by trivial, by trivial⟩, by omega, by push_cast; omega⟩
  · rw [WIN_InitMouse_body_skip p i d s hd]
    exact hs

/-! ## Properties of `SDL_MUSTLOCK` -/

theorem and_low_bits (flags m : Nat) (hm : 63 &&& m = m) :
    flags &&& m = (flags % 64) &&& m := by
  have h := Nat.and_pow_two_sub_one_eq_mod flags 6
  norm_num at h
  rw [← h, Nat.and_assoc, hm]

theorem testBit_low_bits (flags i : Nat) (hi : i < 6) :
    flags.testBit i = (flags % 64).testBit i := by
  have h := Nat.testBit_mod_two_pow flags 6 i
  norm_num at h
  rw [h]
  simp [hi]

theorem SDL_MUSTLOCK_mod (flags : Nat) : SDL_MUSTLOCK flags = SDL_MUSTLOCK (flags % 64) := by
  unfold SDL_MUSTLOCK
  rw [and_low_bits flags (SDL_HWSURFACE ||| SDL_RLEACCEL) (by decide)]

/-- C21: for every flags word, `SDL_MUSTLOCK` is non-zero (and then 1) if and only if
`SDL_HWSURFACE` or `SDL_RLEACCEL` is set; two words that agree on bit 0 and bit 5
have the same value; and a word made only of `SDL_PREALLOC`, `SDL_SRCALPHA`,
`SDL_SRCCOLORKEY` and `SDL_RLEACCELOK` evaluates to 0. -/
theorem SDL_MUSTLOCK_flags (flags : Nat) :
    (SDL_MUSTLOCK flags ≠ 0 ↔
      (flags &&& SDL_HWSURFACE ≠ 0 ∨ flags &&& SDL_RLEACCEL ≠ 0)) ∧
    (SDL_MUSTLOCK flags = 0 ∨ SDL_MUSTLOCK flags = 1) ∧
    (∀ other : Nat, other.testBit 0 = flags.testBit 0 → other.testBit 5 = flags.testBit 5 →
      SDL_MUSTLOCK other = SDL_MUSTLOCK flags) ∧
    (flags &&& (SDL_PREALLOC ||| SDL_SRCALPHA ||| SDL_SRCCOLORKEY ||| SDL_RLEACCELOK) = flags →
      SDL_MUSTLOCK flags = 0) := by
  have hlt : flags % 64 < 64 := Nat.mod_lt _ (by decide)
  refine ⟨?_, ?_, ?_, ?_⟩
  · have hfin : ∀ r < 64, (SDL_MUSTLOCK r ≠ 0 ↔
        (r &&& SDL_HWSURFACE ≠ 0 ∨ r &&& SDL_RLEACCEL ≠ 0)) := by decide
    rw [SDL_MUSTLOCK_mod, and_low_bits flags SDL_HWSURFACE (by decide),
      and_low_bits flags SDL_RLEACCEL (by decide)]
    exact hfin _ hlt
  · have hfin : ∀ r < 64, (SDL_MUSTLOCK r = 0 ∨ SDL_MUSTLOCK r = 1) := by decide
    rw [SDL_MUSTLOCK_mod]
    exact hfin _ hlt
  · intro other h0 h5
    have hfin : ∀ r < 64, ∀ q < 64, q.testBit 0 = r.testBit 0 → q.testBit 5 = r.testBit 5 →
        SDL_MUSTLOCK q = SDL_MUSTLOCK r := by decide
    rw [testBit_low_bits other 0 (by decide), testBit_low_bits flags 0 (by decide)] at h0
    rw [testBit_low_bits other 5 (by decide), testBit_low_bits flags 5 (by decide)] at h5
    rw [SDL_MUSTLOCK_mod other, SDL_MUSTLOCK_mod flags]
    exact hfin _ hlt _ (Nat.mod_lt _ (by decide)) h0 h5
  · intro h
    have hz : flags &&& (SDL_HWSURFACE ||| SDL_RLEACCEL) = 0 := by
      rw [← h, Nat.and_assoc]
      have h0 : (SDL_PREALLOC ||| SDL_SRCALPHA ||| SDL_SRCCOLORKEY ||| SDL_RLEACCELOK) &&&
          (SDL_HWSURFACE ||| SDL_RLEACCEL) = 0 := by decide
      rw [h0, Nat.and_zero]
    simp [SDL_MUSTLOCK, hz]

/-! ## Identifier arithmetic of `SDL_XBIOS_ListMilanModes` -/

/-- C28: the identifiers are submitted in strictly increasing order; two tried
combinations with the same identifier are the same combination; no two emitted
descriptors share a number; and the catalog positions of the pair and of the depth
of an emitted descriptor are computed from its number. -/
theorem ListMilanModes_identifiers_unique (Validmode : Int → Int) (actually_add : Int) :
    (submittedModes (SDL_XBIOS_ListMilanModes Validmode actually_add)).Pairwise
      (fun a b => a < b) ∧
    (∀ i ∈ List.range' 0 NUM_PREDEFINED_MODES, ∀ j ∈ List.range' 1 (4 - 1),
      ∀ i' ∈ List.range' 0 NUM_PREDEFINED_MODES, ∀ j' ∈ List.range' 1 (4 - 1),
        toUint16 (toUint16 (0x1000 + (i <<< 4)) + j) =
          toUint16 (toUint16 (0x1000 + (i' <<< 4)) + j') → i = i' ∧ j = j') ∧
    ((emittedModes (SDL_XBIOS_ListMilanModes Validmode actually_add)).map
      fun m => m.number).Nodup ∧
    (emittedModes (SDL_XBIOS_ListMilanModes Validmode actually_add)).all
      (fun m => modeListIndex m = (m.number - 0x1000) / 16 ∧
        modeBppIndex m = (m.number - 0x1000) % 16 - 1) = true := by
  rw [submittedModes_ListMilanModes, emittedModes_ListMilanModes]
  refine ⟨by decide, by decide, ?_, ?_⟩
  · have hnodup : (milanCatalog.map fun m => m.number).Nodup := by decide
    exact hnodup.sublist ((List.filter_sublist _).map _)
  · rw [List.all_eq_true]
    intro m hm
    have hall : milanCatalog.all
        (fun m => modeListIndex m = (m.number - 0x1000) / 16 ∧
          modeBppIndex m = (m.number - 0x1000) % 16 - 1) = true := by decide
    exact List.all_eq_true.mp hall m (List.mem_of_mem_filter hm)

/-- C30: in every iteration (`i` from 0 for 7 rounds, `j` from 1 for 3 rounds) the
index `i` is inside `mode_list`, the index `j - 1` is inside `mode_bpp`, and
0x1000 + (i << 4) + j is below 2^16, so that neither the `Uint16` `deviceid`, nor
the identifier, nor its conversion to `short` wraps; the identifiers submitted are
these unwrapped values. -/
theorem ListMilanModes_arithmetic_in_range (Validmode : Int → Int) (actually_add : Int) :
    (∀ i ∈ List.range' 0 NUM_PREDEFINED_MODES, ∀ j ∈ List.range' 1 (4 - 1),
      i < 7 ∧ i < mode_list.length ∧ 0 ≤ j - 1 ∧ j - 1 ≤ 3 ∧ 1 ≤ j ∧
        j - 1 < mode_bpp.length ∧
        0x1000 + (i <<< 4) + j < 2 ^ 16 ∧
        toUint16 (0x1000 + (i <<< 4)) = 0x1000 + (i <<< 4) ∧
        toUint16 (toUint16 (0x1000 + (i <<< 4)) + j) = 0x1000 + (i <<< 4) + j ∧
        toShort (toUint16 (0x1000 + (i <<< 4)) + j) = ((0x1000 + (i <<< 4) + j : Nat) : Int)) ∧
    submittedModes (SDL_XBIOS_ListMilanModes Validmode actually_add) =
      (List.range' 0 NUM_PREDEFINED_MODES).flatMap fun i =>
        (List.range' 1 (4 - 1)).map fun j => ((0x1000 + (i <<< 4) + j : Nat) : Int) := by
  rw [submittedModes_ListMilanModes]
  exact ⟨by decide, by decide⟩

/-! ## Teardown frame -/

/-- C29: `WIN_QuitMouse` returns `mice`, `total_mice`, `tablet` and `data->mouse` as
they were, every call it makes is an `SDL_DelMouse`, and a second `WIN_QuitMouse`
makes the same calls again. -/
theorem WIN_QuitMouse_frame (g : Globals) :
    (WIN_QuitMouse g).1 = g ∧
    (WIN_QuitMouse (WIN_QuitMouse g).1).2 = (WIN_QuitMouse g).2 ∧
    (WIN_QuitMouse g).2 =
      (List.range g.total_mice.toNat).map (fun (k : Nat) => Call.SDL_DelMouse k) := by
  refine ⟨rfl, rfl, ?_⟩
  simp [WIN_QuitMouse, WIN_QuitMouse_loop_eq, List.range_eq_range']

/-! ## Name lookup, buffers and carried state of `WIN_InitMouse` -/

/-- C22 (code defect): after a failed `RegOpenKeyExA` the default name is copied, but
`RegQueryValueExA` is called all the same, and when it reports success what it
stored replaces the default name. A mouse whose key cannot be opened and whose
value query answers "Stale Name" is registered as "Stale Name". -/
theorem WIN_InitMouse_registers_value_after_failed_open :
    (∀ key_name : List Char, staleQuery.regOpen 0 key_name ≠ ERROR_SUCCESS) ∧
    (∀ key_name : List Char, (staleQuery.regQuery 0 key_name).1 = ERROR_SUCCESS) ∧
    addMouseNames (WIN_InitMouse staleQuery initialGlobals).2 = [(0, "Stale Name".toList)] := by
  refine ⟨fun _ => (by decide : (2 : Int) ≠ 0), fun _ => rfl, by decide⟩

set_option maxRecDepth 20000 in
/-- C23 (code defect): the default name is copied with `SDL_strlen` bytes, without
its terminator. In zeroed memory the registered name is "Pointing device xx"; in
memory that held an earlier text it is "Pointing device xx wacom pad" and the device
is classified as the tablet; when the 256 bytes hold no NUL the name runs over all
of them, up to the NUL that follows the buffer. -/
theorem WIN_InitMouse_fallback_name_not_terminated :
    addMouseNames (WIN_InitMouse (namedMice [none]) initialGlobals).2 =
      [(0, "Pointing device xx".toList)] ∧
    (WIN_InitMouse (namedMice [none]) initialGlobals).1.tablet = -1 ∧
    addMouseNames (WIN_InitMouse dirtyMemory initialGlobals).2 =
      [(0, "Pointing device xx wacom pad".toList)] ∧
    (WIN_InitMouse dirtyMemory initialGlobals).1.tablet = 0 ∧
    (addMouseNames (WIN_InitMouse filledMemory initialGlobals).2).map (fun x => x.2.length) =
      [256] := by
  decide

/-- C25 (code defect): `key_name` is allocated with `tmp + sizeof(reg_key_root)` bytes,
the size of a pointer, not the length of the root. For the sample path of length 29
the code stores 30 + 21 = 51 bytes in 33 (or, with 8-byte pointers, 37) allocated
bytes; for a reported length of 0 it stores 31 bytes in 4 (or 8). -/
theorem keyName_written_exceeds_allocation :
    SDL_strlen reg_key_root = 30 ∧
    keyNameWritten samplePath 29 = 51 ∧
    (keyNameBytes samplePath 29).length = 51 ∧
    keyNameSize 29 4 = 33 ∧ keyNameSize 29 8 = 37 ∧
    keyNameWritten (bytesOf "") 0 = 31 ∧
    keyNameSize 0 4 = 4 ∧ keyNameSize 0 8 = 8 := by
  decide

theorem WIN_InitMouse_body_carried (p : Platform) (t : Nat) (i : Nat)
    (d : RAWINPUTDEVICELIST) (s : LoopState) (hs : carriedSoFar t s) :
    carriedSoFar t (WIN_InitMouse_body p i d s) := by
  by_cases hd : d.dwType = RIM_TYPEMOUSE
  · have hb : (beforeRegister p i d s).calls.count Call.WTInfo = s.calls.count Call.WTInfo := by
      simp [beforeRegister, List.count_append, List.count_cons]
    have hbt : (beforeRegister p i d s).tablet = s.tablet := rfl
    have hbi : (beforeRegister p i d s).index = s.index := rfl
    obtain ⟨htab, hcnt⟩ := hs
    have hne : s.tablet ≠ -1 := by omega
    unfold carriedSoFar
    rw [WIN_InitMouse_body_mouse p i d s hd, registerMouse_tablet, registerMouse_index,
      registerMouse_calls, hbt, hbi, classifyTablet_of_set _ _ _ hne]
    refine ⟨htab, ?_⟩
    by_cases hti : t = s.index
    · have heq : s.tablet = (s.index : Int) := by omega
      rw [if_pos heq]
      have hlt : ¬ t < s.index := by omega
      simp [List.count_append, List.count_cons, hb, hcnt, hlt, hti]
    · have hneq : ¬ s.tablet = (s.index : Int) := by omega
      rw [if_neg hneq]
      by_cases hlt : t < s.index
      · have hlt2 : t < s.index + 1 := by omega
        simp [List.count_append, List.count_cons, hb, hcnt, hlt, hlt2]
      · have hlt2 : ¬ t < s.index + 1 := by omega
        simp [List.count_append, List.count_cons, hb, hcnt, hlt, hlt2]
  · rw [WIN_InitMouse_body_skip p i d s hd]
    exact hs

/-! ## Bounds of the device loop and of the classification scan -/

theorem wacom_k_reads_bound (device_name : List Char) (j n k : Nat) :
    ∀ pos ∈ wacom_k_reads device_name j n k, pos < j + k + n := by
  induction n generalizing k with
  | zero => intro pos h; simp [wacom_k_reads] at h
  | succ n ih =>
    intro pos h
    rw [wacom_k_reads, List.mem_cons] at h
    rcases h with h | h
    · omega
    · split at h
      · simp at h
      · have := ih (k + 1) pos h
        omega

theorem wacom_j_reads_bound (device_name : List Char) (n j : Nat) :
    (wacom_j_reads device_name n j).length ≤ n ∧
    ∀ e ∈ wacom_j_reads device_name n j, j ≤ e.1 ∧ e.1 < j + n ∧ ∀ pos ∈ e.2, pos < j + n + 4 := by
  induction n generalizing j with
  | zero => simp [wacom_j_reads]
  | succ n ih =>
    obtain ⟨hlen, hmem⟩ := ih (j + 1)
    rw [wacom_j_reads]
    constructor
    · split
      · simp
      · simp only [List.length_cons]; omega
    · intro e he
      rw [List.mem_cons] at he
      rcases he with he | he
      · subst he
        refine ⟨Nat.le_refl _, by omega, ?_⟩
        intro pos hpos
        have := wacom_k_reads_bound device_name j 5 0 pos hpos
        omega
      · split at he
        · simp at he
        · obtain ⟨h1, h2, h3⟩ := hmem e he
          refine ⟨by omega, by omega, ?_⟩
          intro pos hpos
          have := h3 pos hpos
          omega

/-- C27: for every name, of any length `l`, the scan tries at most `max(0, l-5)` start
positions, each below `l - 5`, and every position `j + k` it reads is below `l`; a
name shorter than 6 characters is not read at all. -/
theorem wacom_scan_in_bounds (device_name : List Char) :
    ((scanReads device_name).length : Int) ≤ max 0 (((SDL_strlen device_name : Nat) : Int) - 5) ∧
    (∀ e ∈ scanReads device_name,
      ((e.1 : Nat) : Int) < ((SDL_strlen device_name : Nat) : Int) - 5 ∧
      ∀ pos ∈ e.2, 0 ≤ ((pos : Nat) : Int) ∧ pos < SDL_strlen device_name) ∧
    (SDL_strlen device_name < 6 → scanReads device_name = []) ∧
    scanReads "Wacom".toList = [] ∧ scanReads "".toList = [] ∧
    scanReads "a wacom".toList = [(0, [0]), (1, [1])] := by
  obtain ⟨hlen, hmem⟩ := wacom_j_reads_bound device_name
    (((SDL_strlen device_name : Nat) : Int) - 5).toNat 0
  refine ⟨?_, ?_, ?_, by decide, by decide, by decide⟩
  · unfold scanReads
    omega
  · intro e he
    obtain ⟨_, h2, h3⟩ := hmem e he
    refine ⟨by omega, ?_⟩
    intro pos hpos
    have := h3 pos hpos
    omega
  · intro hshort
    have hz : (((SDL_strlen device_name : Nat) : Int) - 5).toNat = 0 := by omega
    unfold scanReads
    rw [hz]
    rfl

/-! ## Passes that do not publish their count -/

theorem WIN_InitMouse_calls_eq (p : Platform) (g : Globals) (hcount : p.countResult = 0) :
    (WIN_InitMouse p g).2 = (WIN_InitMouse_loop p p.deviceList 0 (loopEntry p g)).calls := by
  simp only [WIN_InitMouse, hcount, ne_eq, not_true_eq_false, if_false, loopEntry]
  split <;> rfl

theorem WIN_InitMouse_tablet_eq (p : Platform) (g : Globals) (hcount : p.countResult = 0) :
    (WIN_InitMouse p g).1.tablet =
      (WIN_InitMouse_loop p p.deviceList 0 (loopEntry p g)).tablet := by
  simp only [WIN_InitMouse, hcount, ne_eq, not_true_eq_false, if_false, loopEntry]
  split <;> rfl

/-- C1 (code defect): `total_mice` is not always the number of devices registered.
After a pass with two mice and a teardown, a pass whose count query fails registers
nothing and leaves `total_mice = 2` (the early `return` of line 60). And every
registering iteration ends with `SDL_free` of the pointer advanced at line 102: with
an allocator that stops the program there, the pass over two mice registers index 0,
does not return, and `total_mice` stays 0. -/
theorem WIN_InitMouse_count_not_published :
    (WIN_QuitMouse (WIN_InitMouse (namedMice [some "Mouse A", some "Mouse B"])
      initialGlobals).1).1 = staleGlobals ∧
    addMouseIndices (WIN_InitMouse failingCount staleGlobals).2 = [] ∧
    (WIN_InitMouse failingCount staleGlobals).1.total_mice = 2 ∧
    WIN_InitMouse_returns (strictAllocator [some "Mouse A", some "Mouse B"]) initialGlobals
      = false ∧
    addMouseIndices (WIN_InitMouse (strictAllocator [some "Mouse A", some "Mouse B"])
      initialGlobals).2 = [0] ∧
    (WIN_InitMouse (strictAllocator [some "Mouse A", some "Mouse B"])
      initialGlobals).1.total_mice = 0 := by
  decide

/-- C12 (code defect): after a pass whose count query fails, `mice` and `total_mice`
still describe the two handles of the earlier pass although this pass has no
mouse-class entry at all; and with an allocator that stops the program in `SDL_free`
of the advanced pointer, the pass over two mice stores the first handle only and
`total_mice` stays 0. -/
theorem WIN_InitMouse_mice_not_of_this_pass :
    failingCount.deviceList = [] ∧
    (WIN_InitMouse failingCount staleGlobals).1.mice = [some 100, some 101] ∧
    (WIN_InitMouse failingCount staleGlobals).1.total_mice = 2 ∧
    (WIN_InitMouse (strictAllocator [some "Mouse A", some "Mouse B"]) initialGlobals).1.mice =
      [some 100, none] ∧
    (WIN_InitMouse (strictAllocator [some "Mouse A", some "Mouse B"])
      initialGlobals).1.total_mice = 0 := by
  decide

/-- C26 (code defect): after a pass whose count query fails `total_mice` is still 2,
which is more than the device count 0 of this pass and not the number of its
`SDL_AddMouse` calls; and with an allocator that stops the program in `SDL_free` of
the advanced pointer, one `SDL_AddMouse` call has been made while `total_mice` is 0. -/
theorem WIN_InitMouse_count_exceeds_devCount :
    (failingCount.deviceList.length : Int) <
      (WIN_InitMouse failingCount staleGlobals).1.total_mice ∧
    (addMouseIndices (WIN_InitMouse failingCount staleGlobals).2).length = 0 ∧
    (addMouseIndices (WIN_InitMouse (strictAllocator [some "Mouse A", some "Mouse B"])
      initialGlobals).2).length = 1 ∧
    (WIN_InitMouse (strictAllocator [some "Mouse A", some "Mouse B"])
      initialGlobals).1.total_mice = 0 := by
  decide

/-! ## Pressure range and carried tablet, iteration by iteration -/

/-- C15: the calls of an iteration for a mouse-class device are the two path queries,
the three registry calls and `SDL_SetIndexId`, followed, if the device is the tablet
(`tablet == index` after the classification), by the `WTInfo` query and `SDL_AddMouse`
with `axMax` and `axMin` of the answer of this iteration, and otherwise by
`SDL_AddMouse` with 0 and 0. -/
theorem WIN_InitMouse_pressure_range (p : Platform) (i : Nat) (d : RAWINPUTDEVICELIST)
    (s : LoopState) (hd : d.dwType = RIM_TYPEMOUSE) :
    (WIN_InitMouse_body p i d s).calls =
      s.calls ++
        [Call.GetRawInputDeviceInfoA d.hDevice false, Call.GetRawInputDeviceInfoA d.hDevice true,
          Call.RegOpenKeyExA (lookupKey p i d s.tmp), Call.RegQueryValueExA, Call.RegCloseKey,
          Call.SDL_SetIndexId s.index s.index] ++
        (if (WIN_InitMouse_body p i d s).tablet = (s.index : Int) then
          [Call.WTInfo,
            Call.SDL_AddMouse s.index (cString (resolveName p i (lookupKey p i d s.tmp)))
              (p.pressure i).axMax (p.pressure i).axMin]
        else
          [Call.SDL_AddMouse s.index (cString (resolveName p i (lookupKey p i d s.tmp))) 0 0]) := by
  rw [WIN_InitMouse_body_mouse p i d s hd, registerMouse_tablet, registerMouse_calls]
  simp [beforeRegister]

/-- Witness for C15: the second iteration of the pass over the three names registers
the tablet with the reported axis 1023 and 0. -/
theorem WIN_InitMouse_pressure_range_witness :
    (⟨101, RIM_TYPEMOUSE⟩ : RAWINPUTDEVICELIST).dwType = RIM_TYPEMOUSE ∧
      Call.SDL_AddMouse 1 "Wacom Tablet".toList 1023 0 ∈
        (WIN_InitMouse_body threeNames 1 ⟨101, RIM_TYPEMOUSE⟩
          (WIN_InitMouse_body threeNames 0 ⟨100, RIM_TYPEMOUSE⟩
            (loopEntry threeNames initialGlobals))).calls ∧
      (WIN_InitMouse_body threeNames 0 ⟨100, RIM_TYPEMOUSE⟩
          (loopEntry threeNames initialGlobals)).calls =
        (loopEntry threeNames initialGlobals).calls ++
          [Call.GetRawInputDeviceInfoA 100 false, Call.GetRawInputDeviceInfoA 100 true,
            Call.RegOpenKeyExA (lookupKey threeNames 0 ⟨100, RIM_TYPEMOUSE⟩ 0),
            Call.RegQueryValueExA, Call.RegCloseKey, Call.SDL_SetIndexId 0 0] ++
          [Call.SDL_AddMouse 0 "Generic Mouse".toList 0 0] :=
  ⟨rfl, by decide,
    (WIN_InitMouse_pressure_range threeNames 0 ⟨100, RIM_TYPEMOUSE⟩
      (loopEntry threeNames initialGlobals) rfl).trans (by decide)⟩

/-- C24: `tablet = t >= 0` is kept by every iteration and by the whole pass, whether
the pass returns, is aborted by the count query, or is stopped by the allocator; for
such a `tablet` the classification returns it for every index and every name; the
pressure axis is queried once if more than `t` devices have been registered and not
at all otherwise; and every registration at another index carries 0 and 0. -/
theorem WIN_InitMouse_tablet_carried (p : Platform) (g : Globals) (t : Nat)
    (ht : g.tablet = (t : Int)) :
    (WIN_InitMouse p g).1.tablet = (t : Int) ∧
    (∀ (i : Nat) (d : RAWINPUTDEVICELIST) (s : LoopState), s.tablet = (t : Int) →
      (WIN_InitMouse_body p i d s).tablet = (t : Int)) ∧
    (∀ (index : Nat) (device_name : List Char),
      classifyTablet (t : Int) index device_name = (t : Int)) ∧
    (WIN_InitMouse p g).2.count Call.WTInfo =
      (if t < (addMouseIndices (WIN_InitMouse p g).2).length then 1 else 0) ∧
    (∀ (idx : Int) (name : List Char) (pressure_max pressure_min : Int),
      Call.SDL_AddMouse idx name pressure_max pressure_min ∈ (WIN_InitMouse p g).2 →
        idx ≠ (t : Int) → pressure_max = 0 ∧ pressure_min = 0) := by
  have hclass : ∀ (index : Nat) (device_name : List Char),
      classifyTablet (t : Int) index device_name = (t : Int) :=
    fun index device_name => classifyTablet_of_set _ _ _ (by omega)
  have hbody : ∀ (i : Nat) (d : RAWINPUTDEVICELIST) (s : LoopState), s.tablet = (t : Int) →
      (WIN_InitMouse_body p i d s).tablet = (t : Int) := by
    intro i d s hs
    rw [WIN_InitMouse_body_tablet p i d s (by omega), hs]
  by_cases hcount : p.countResult = 0
  · have hc := WIN_InitMouse_loop_invariant p (carriedSoFar t) (WIN_InitMouse_body_carried p t)
      p.deviceList 0 (loopEntry p g) ⟨ht, rfl⟩
    have hd := WIN_InitMouse_loop_invariant p denseSoFar (WIN_InitMouse_body_dense p)
      p.deviceList 0 (loopEntry p g) ⟨rfl, rfl⟩
    have hp := WIN_InitMouse_loop_invariant p (pressureSoFar p) (WIN_InitMouse_body_pressure p)
      p.deviceList 0 (loopEntry p g)
      (by
        intro c hc
        simp only [loopEntry, List.mem_cons, List.mem_singleton, List.not_mem_nil,
          or_false] at hc
        rcases hc with hc | hc <;> (subst hc; simp [pressureRule, indexBelow]))
    rw [WIN_InitMouse_calls_eq p g hcount, WIN_InitMouse_tablet_eq p g hcount]
    refine ⟨hc.1, hbody, hclass, ?_, ?_⟩
    · rw [hc.2, hd.2]
      simp
    · intro idx name pressure_max pressure_min hcall hne
      have h := (hp _ hcall).1
      simp only [pressureRule] at h
      rw [hc.1] at h
      rcases h with ⟨he, _⟩ | ⟨_, hz⟩
      · exact absurd he hne
      · exact hz
  · refine ⟨by simp [WIN_InitMouse, hcount, ht], hbody, hclass, ?_, ?_⟩
    · simp [WIN_InitMouse, hcount, addMouseIndices]
    · intro idx name pressure_max pressure_min hcall
      simp [WIN_InitMouse, hcount] at hcall

/-- Witness for C24: the pass over the three names entered with `tablet = 0`, with an
allocator that stops the program: the generic mouse at index 0 is treated as the
tablet and `tablet` stays 0. -/
theorem WIN_InitMouse_tablet_carried_witness :
    ({ initialGlobals with tablet := 0 } : Globals).tablet = ((0 : Nat) : Int) ∧
      addMouseNames (WIN_InitMouse
        (strictAllocator [some "Generic Mouse", some "Wacom Tablet", some "Wacom Tablet 2"])
        { initialGlobals with tablet := 0 }).2 = [(0, "Generic Mouse".toList)] ∧
      Call.SDL_AddMouse 0 "Generic Mouse".toList 1023 0 ∈
        (WIN_InitMouse threeNames { initialGlobals with tablet := 0 }).2 ∧
      (WIN_InitMouse
        (strictAllocator [some "Generic Mouse", some "Wacom Tablet", some "Wacom Tablet 2"])
        { initialGlobals with tablet := 0 }).1.tablet = ((0 : Nat) : Int) :=
  ⟨rfl, by decide, by decide,
    (WIN_InitMouse_tablet_carried
      (strictAllocator [some "Generic Mouse", some "Wacom Tablet", some "Wacom Tablet 2"])
      { initialGlobals with tablet := 0 } 0 rfl).1⟩


end SDL
